import Mathlib

/-!
Verification of the sideseat SDK instrumentation and span-correlation engine.

The definitions below are a shallow embedding of the Python source under
`src/sdk/python/src/sideseat/`:

* `J` models JSON-safe Python values (dicts are association lists preserving
  insertion order, as Python dicts do).
* `ConverseAccumulator` embeds `_ConverseAccumulator` from
  `instrumentors/aws/bedrock.py` (Format A, block-oriented streaming).
* `ClaudeStreamState` embeds the event loop of
  `_InvokeModelStreamWrapper._finalize_claude` (Format B, index-addressed
  streaming).
* `Pending`, `cleanup`, `storeRequest`, `reparentResponse`, `onEnd` embed
  `_LogfireStreamingProcessor` from `telemetry/processors.py`.
* `instrument` embeds `instrumentation.instrument`.
* The stream-wrapper state machines and the four wrapped call shapes embed
  `_ConverseStreamWrapper`, `_wrap_converse`, `_wrap_converse_stream`,
  `_wrap_invoke_model`, `_wrap_invoke_model_stream`.

External library functions (`json.loads`, `hashlib.sha256`) are taken as
explicit parameters (`jsonLoads`, `makeKey`); the Python float monotonic
clock is modelled by integer timestamps (only subtraction and comparison
are performed on it, which are exact).
-/

namespace Sideseat

/-- JSON-safe value, as produced and consumed by the instrumented code.
Objects are association lists in insertion order, matching Python dicts. -/
inductive J where
  | null
  | bool (b : Bool)
  | int (n : Int)
  | str (s : String)
  | arr (elems : List J)
  | obj (fields : List (String × J))

/-- Lookup in an association list: Python `d.get(k)` / `d[k]`. -/
def alookup (d : List (String × J)) (k : String) : Option J :=
  match d with
  | [] => none
  | (k₁, v) :: rest => if k₁ = k then some v else alookup rest k

/-- Python `k in d`. -/
def akey (d : List (String × J)) (k : String) : Bool :=
  (alookup d k).isSome

/-- Python `d[k] = v`: overwrite in place if the key exists (keeping its
position, as Python dicts do), else append. -/
def aset (d : List (String × J)) (k : String) (v : J) : List (String × J) :=
  match d with
  | [] => [(k, v)]
  | (k₁, v₁) :: rest => if k₁ = k then (k, v) :: rest else (k₁, v₁) :: aset rest k v

/-- Python `d.update(u)`: assign every key of `u` in order. -/
def aupdate (d u : List (String × J)) : List (String × J) :=
  u.foldl (fun acc kv => aset acc kv.1 kv.2) d

/-- Projection of a value expected to be a dict. The Python source raises a
TypeError when the value is not a dict; theorems only apply this to
dict-shaped events, where the two semantics agree. -/
def J.asObj : J → List (String × J)
  | .obj fields => fields
  | _ => []

/-- Projection of a value expected to be a string (Python would raise a
TypeError on `str + nonstr`; theorems only use string-shaped fields). -/
def J.asStr : J → String
  | .str s => s
  | _ => ""

/-- Python `d.get(k, {})` followed by use as a dict. -/
def agetObj (d : List (String × J)) (k : String) : List (String × J) :=
  ((alookup d k).getD (J.obj [])).asObj

/-- Python truthiness of an optional value (`if x:`). -/
def jTruthy : Option J → Bool
  | none => false
  | some .null => false
  | some (.bool b) => b
  | some (.int n) => n ≠ 0
  | some (.str s) => s ≠ ""
  | some (.arr elems) => !elems.isEmpty
  | some (.obj fields) => !fields.isEmpty

/-! ## Format A: `_ConverseAccumulator` (bedrock.py lines 66-146) -/

/-- Per-call state of `_ConverseAccumulator`. -/
structure ConverseAccumulator where
  blocks : List J
  stop_reason : Option J
  usage : List (String × J)
  current_block : Option (List (String × J))
  current_text : String
  current_signature : String

/-- Fresh accumulator, as built by `_ConverseAccumulator.__init__`. -/
def ConverseAccumulator.init : ConverseAccumulator :=
  { blocks := [], stop_reason := none, usage := [],
    current_block := none, current_text := "", current_signature := "" }

/-- Embedding of `_ConverseAccumulator.process_event`. `jsonLoads` stands for
the external `json.loads` (`none` models a parse failure). The event is the
Python event dict. -/
def processEvent (jsonLoads : String → Option J) (acc : ConverseAccumulator)
    (event : List (String × J)) : ConverseAccumulator :=
  match alookup event "contentBlockStart" with
  | some startVal =>
      let start := agetObj startVal.asObj "start"
      { acc with current_block := some start, current_text := "", current_signature := "" }
  | none =>
  match alookup event "contentBlockDelta" with
  | some deltaVal =>
      let delta := agetObj deltaVal.asObj "delta"
      let acc :=
        match acc.current_block with
        | some _ => acc
        | none =>
            if akey delta "reasoningContent" then
              { acc with current_block := some [("reasoningContent", J.obj [])],
                         current_text := "", current_signature := "" }
            else
              { acc with current_block := some [],
                         current_text := "", current_signature := "" }
      match alookup delta "text" with
      | some t => { acc with current_text := acc.current_text ++ t.asStr }
      | none =>
      match alookup delta "toolUse" with
      | some tu =>
          { acc with current_text :=
              acc.current_text ++ ((alookup tu.asObj "input").getD (J.str "")).asStr }
      | none =>
      match alookup delta "reasoningContent" with
      | some rcVal =>
          let rc := rcVal.asObj
          let acc :=
            match alookup rc "text" with
            | some t => { acc with current_text := acc.current_text ++ t.asStr }
            | none => acc
          match alookup rc "signature" with
          | some s => { acc with current_signature := acc.current_signature ++ s.asStr }
          | none => acc
      | none => acc
  | none =>
  match alookup event "contentBlockStop" with
  | some _ =>
      match acc.current_block with
      | none => acc
      | some block =>
          let finished : J :=
            if akey block "toolUse" then
              let parsed := (jsonLoads acc.current_text).getD (J.str acc.current_text)
              J.obj (aset block "toolUse"
                (J.obj (aset (agetObj block "toolUse") "input" parsed)))
            else if akey block "text" || block.isEmpty then
              J.obj [("text", J.str acc.current_text)]
            else if akey block "reasoningContent" then
              let reasoningText :=
                if acc.current_signature ≠ "" then
                  [("text", J.str acc.current_text),
                   ("signature", J.str acc.current_signature)]
                else [("text", J.str acc.current_text)]
              J.obj (aset block "reasoningContent"
                (J.obj [("reasoningText", J.obj reasoningText)]))
            else
              -- unknown type: preserve start data verbatim
              J.obj block
          { acc with blocks := acc.blocks ++ [finished],
                     current_block := none, current_text := "", current_signature := "" }
  | none =>
  match alookup event "messageStop" with
  | some msVal => { acc with stop_reason := alookup msVal.asObj "stopReason" }
  | none =>
  match alookup event "metadata" with
  | some mdVal =>
      let usage := agetObj mdVal.asObj "usage"
      if usage.isEmpty then acc else { acc with usage := usage }
  | none => acc

/-- Folding a whole Format A event stream. -/
def processEvents (jsonLoads : String → Option J) (acc : ConverseAccumulator)
    (events : List (List (String × J))) : ConverseAccumulator :=
  events.foldl (processEvent jsonLoads) acc

/-! ## Format B: the event loop of `_InvokeModelStreamWrapper._finalize_claude`
(bedrock.py lines 543-663). Indexed accumulation state; the enclosing loop
json-decodes each raw chunk and silently skips undecodable ones. -/

/-- Lookup in an `Int`-keyed association list (the `block_texts` /
`block_types` / `block_signatures` dicts). -/
def ilookup {α : Type} (d : List (Int × α)) (k : Int) : Option α :=
  match d with
  | [] => none
  | (k₁, v) :: rest => if k₁ = k then some v else ilookup rest k

/-- Assignment in an `Int`-keyed association list (`d[k] = v`). -/
def iset {α : Type} (d : List (Int × α)) (k : Int) (v : α) : List (Int × α) :=
  match d with
  | [] => [(k, v)]
  | (k₁, v₁) :: rest => if k₁ = k then (k, v) :: rest else (k₁, v₁) :: iset rest k v

/-- Local state of the `_finalize_claude` event loop. -/
structure ClaudeStreamState where
  content_blocks : List J
  usage : List (String × J)
  stop_reason : Option J
  model : Option J
  block_texts : List (Int × String)
  block_types : List (Int × List (String × J))
  block_signatures : List (Int × String)

/-- Initial loop state of `_finalize_claude`. -/
def ClaudeStreamState.init : ClaudeStreamState :=
  { content_blocks := [], usage := [], stop_reason := none, model := none,
    block_texts := [], block_types := [], block_signatures := [] }

/-- Python `event.get("index", 0)` (an int index). -/
def agetIndex (event : List (String × J)) : Int :=
  match alookup event "index" with
  | some (J.int n) => n
  | _ => 0

/-- The `type` string of a `content_block_start` payload:
Python `base.get("type", "text")`. A present non-string value compares
unequal to every type name, which the empty string also does. -/
def blockTypeStr (base : List (String × J)) : String :=
  match alookup base "type" with
  | some (J.str s) => s
  | some _ => ""
  | none => "text"

/-- Embedding of one iteration of the `_finalize_claude` event loop. -/
def processClaudeEvent (jsonLoads : String → Option J) (st : ClaudeStreamState)
    (event : List (String × J)) : ClaudeStreamState :=
  let eventType := ((alookup event "type").getD (J.str "")).asStr
  if eventType = "message_start" then
    let msg := agetObj event "message"
    let st := { st with model := alookup msg "model" }
    let u := agetObj msg "usage"
    if u.isEmpty then st else { st with usage := aupdate st.usage u }
  else if eventType = "content_block_start" then
    let idx := agetIndex event
    let block := agetObj event "content_block"
    { st with block_types := iset st.block_types idx block,
              block_texts := iset st.block_texts idx "" }
  else if eventType = "content_block_delta" then
    let idx := agetIndex event
    let delta := agetObj event "delta"
    match alookup delta "text" with
    | some t =>
        let cur := (ilookup st.block_texts idx).getD ""
        { st with block_texts := iset st.block_texts idx (cur ++ t.asStr) }
    | none =>
    match alookup delta "partial_json" with
    | some t =>
        let cur := (ilookup st.block_texts idx).getD ""
        { st with block_texts := iset st.block_texts idx (cur ++ t.asStr) }
    | none =>
    match alookup delta "thinking" with
    | some t =>
        let cur := (ilookup st.block_texts idx).getD ""
        { st with block_texts := iset st.block_texts idx (cur ++ t.asStr) }
    | none =>
    match alookup delta "signature" with
    | some t =>
        let cur := (ilookup st.block_signatures idx).getD ""
        { st with block_signatures := iset st.block_signatures idx (cur ++ t.asStr) }
    | none => st
  else if eventType = "content_block_stop" then
    let idx := agetIndex event
    let base := (ilookup st.block_types idx).getD []
    let text := (ilookup st.block_texts idx).getD ""
    let bt := blockTypeStr base
    if bt = "tool_use" then
      let parsedInput := (jsonLoads text).getD (J.str text)
      { st with content_blocks := st.content_blocks ++
          [J.obj [("toolUse", J.obj
            [("toolUseId", (alookup base "id").getD (J.str "")),
             ("name", (alookup base "name").getD (J.str "")),
             ("input", parsedInput)])]] }
    else if bt = "thinking" then
      -- Python `block_signatures.get(idx) or base.get("signature")`
      let sig : Option J :=
        match ilookup st.block_signatures idx with
        | some s => if s ≠ "" then some (J.str s) else alookup base "signature"
        | none => alookup base "signature"
      let reasoningText :=
        if jTruthy sig then
          [("text", J.str text), ("signature", sig.getD J.null)]
        else [("text", J.str text)]
      { st with content_blocks := st.content_blocks ++
          [J.obj [("reasoningContent", J.obj
            [("reasoningText", J.obj reasoningText)])]] }
    else
      { st with content_blocks := st.content_blocks ++ [J.obj [("text", J.str text)]] }
  else if eventType = "message_delta" then
    let delta := agetObj event "delta"
    let st :=
      match alookup delta "stop_reason" with
      | some v => { st with stop_reason := some v }
      | none => st
    let u := agetObj event "usage"
    if u.isEmpty then st else { st with usage := aupdate st.usage u }
  else if eventType = "message_stop" then
    let metrics := agetObj event "amazon-bedrock-invocationMetrics"
    if metrics.isEmpty then st
    else
      let st :=
        match alookup metrics "inputTokenCount" with
        | some v => { st with usage := aset st.usage "input_tokens" v }
        | none => st
      match alookup metrics "outputTokenCount" with
      | some v => { st with usage := aset st.usage "output_tokens" v }
      | none => st
  else st

/-- Folding the whole decoded Format B event stream, as the
`for raw in self._chunks` loop does. -/
def processClaudeEvents (jsonLoads : String → Option J) (st : ClaudeStreamState)
    (events : List (List (String × J))) : ClaudeStreamState :=
  events.foldl (processClaudeEvent jsonLoads) st

/-! ## Usage attributes (bedrock.py `_set_usage_attrs`,
`_set_invoke_model_usage_attrs`) -/

/-- Attribute keys, from `instrumentors/aws/_constants.py`. -/
def INPUT_TOKENS : String := "gen_ai.usage.input_tokens"

def OUTPUT_TOKENS : String := "gen_ai.usage.output_tokens"

def CACHE_READ_TOKENS : String := "gen_ai.usage.cache_read_input_tokens"

def CACHE_WRITE_TOKENS : String := "gen_ai.usage.cache_write_input_tokens"

def FINISH_REASONS : String := "gen_ai.response.finish_reasons"

def RESPONSE_MODEL : String := "gen_ai.response.model"

/-- Embedding of `_set_invoke_model_usage_attrs`: the `set_attribute` calls
made for Claude InvokeModel usage (snake_case keys), as key/value pairs in
call order. -/
def setInvokeModelUsageAttrs (usage : List (String × J)) : List (String × J) :=
  (match alookup usage "input_tokens" with
   | some v => [(INPUT_TOKENS, v)] | none => [])
  ++ (match alookup usage "output_tokens" with
   | some v => [(OUTPUT_TOKENS, v)] | none => [])
  ++ (match alookup usage "cache_read_input_tokens" with
   | some v => [(CACHE_READ_TOKENS, v)] | none => [])
  ++ (match alookup usage "cache_creation_input_tokens" with
   | some v => [(CACHE_WRITE_TOKENS, v)] | none => [])

/-- Embedding of `_set_usage_attrs` (Converse camelCase keys). -/
def setUsageAttrs (usage : List (String × J)) : List (String × J) :=
  (match alookup usage "inputTokens" with
   | some v => [(INPUT_TOKENS, v)] | none => [])
  ++ (match alookup usage "outputTokens" with
   | some v => [(OUTPUT_TOKENS, v)] | none => [])
  ++ (match alookup usage "cacheReadInputTokenCount" with
   | some v => [(CACHE_READ_TOKENS, v)] | none => [])
  ++ (match alookup usage "cacheWriteInputTokenCount" with
   | some v => [(CACHE_WRITE_TOKENS, v)] | none => [])

/-- The usage attributes `_finalize_claude` sets on the span after the event
loop: `if usage: _set_invoke_model_usage_attrs(span, usage)`. The final
value of an attribute is the last `set_attribute` call for its key. -/
def finalizeClaudeUsageAttrs (jsonLoads : String → Option J)
    (events : List (List (String × J))) : List (String × J) :=
  let st := processClaudeEvents jsonLoads ClaudeStreamState.init events
  if st.usage.isEmpty then [] else setInvokeModelUsageAttrs st.usage

/-- The final value a span attribute ends up with after a sequence of
`set_attribute` calls: the last write wins. -/
def finalAttr (writes : List (String × J)) (k : String) : Option J :=
  alookup writes.reverse k

/-! ## `_LogfireStreamingProcessor` (telemetry/processors.py)

Timestamps from `time.monotonic()` are modelled by integers; the processor
only subtracts and compares them, which is exact. The SHA-256 content hash
`_make_key` is an external library call, taken as the `makeKey` parameter. -/

/-- Class constant `_TTL = 60.0`. -/
def TTL : Int := 60

/-- Class constant `_MAX_PENDING = 1000`. -/
def MAX_PENDING : Nat := 1000

/-- One pending correlation entry `(trace_id, span_id, timestamp)`. -/
structure Entry where
  trace_id : Nat
  span_id : Nat
  ts : Int
deriving DecidableEq, Repr

/-- The `self._pending` dict: key → FIFO queue of entries, in key insertion
order (Python dicts iterate in insertion order). -/
abbrev Pending := List (String × List Entry)

/-- Total number of pending entries across all keys. -/
def totalPending (p : Pending) : Nat :=
  (p.map (fun kv => kv.2.length)).sum

/-- First phase of `_cleanup`: drop entries with `now - e[2] > TTL` and
delete keys whose queues become empty. -/
def dropStale (now : Int) (p : Pending) : Pending :=
  p.filterMap (fun kv =>
    let kept := kv.2.filter (fun e => now - e.ts ≤ TTL)
    if kept.isEmpty then none else some (kv.1, kept))

/-- Timestamp of the first (oldest) entry of a queue. Keys never map to an
empty queue (`_cleanup` and `_reparent_response` delete emptied keys), so
the `[]` case is unreachable; Python would raise an IndexError there. -/
def headTs : List Entry → Int
  | [] => 0
  | e :: _ => e.ts

/-- Python `min(self._pending, key=lambda k: self._pending[k][0][2])`:
the first key (in iteration order) whose queue head has the minimal
timestamp. -/
def oldestKey (p : Pending) : Option String :=
  match p with
  | [] => none
  | (k, es) :: rest =>
      some ((rest.foldl
        (fun best kv => if headTs kv.2 < best.2 then (kv.1, headTs kv.2) else best)
        (k, headTs es)).1)

/-- Pop the head entry of key `k` and delete the key if its queue empties
(the eviction step body, and the pop of `_reparent_response`). A queue of
length ≤ 1 leaves nothing behind, so its key is deleted; popping an empty
queue cannot occur (Python would raise an IndexError). -/
def popFront (k : String) : Pending → Pending
  | [] => []
  | (k₁, es) :: rest =>
      if k₁ = k then
        if es.length ≤ 1 then rest else (k₁, es.tail) :: rest
      else (k₁, es) :: popFront k rest

/-- One iteration of the capacity-eviction `while` loop of `_cleanup`. -/
def evictOldest (p : Pending) : Pending :=
  match oldestKey p with
  | none => p
  | some k => popFront k p

/-- The eviction `while total > MAX_PENDING` loop: each iteration removes
exactly one entry, so it runs `total - MAX_PENDING` times. -/
def evictLoop : Nat → Pending → Pending
  | 0, p => p
  | n + 1, p => evictLoop n (evictOldest p)

/-- Embedding of `_LogfireStreamingProcessor._cleanup`. -/
def cleanup (now : Int) (p : Pending) : Pending :=
  let p₁ := dropStale now p
  evictLoop (totalPending p₁ - MAX_PENDING) p₁

/-- Python `self._pending.setdefault(key, []).append(entry)`. -/
def appendEntry (k : String) (e : Entry) : Pending → Pending
  | [] => [(k, [e])]
  | (k₁, es) :: rest =>
      if k₁ = k then (k₁, es ++ [e]) :: rest else (k₁, es) :: appendEntry k e rest

/-- Python `self._pending.get(key)`. -/
def pget (p : Pending) (k : String) : Option (List Entry) :=
  match p with
  | [] => none
  | (k₁, es) :: rest => if k₁ = k then some es else pget rest k

/-- Span context, mirroring the fields of the OTel `SpanContext` the
processor reads and rebuilds. Trace flags are the raw flag bits
(`TraceFlags.SAMPLED = 1`); the trace state is carried opaquely. -/
structure SpanCtx where
  trace_id : Nat
  span_id : Nat
  is_remote : Bool
  trace_flags : Nat
  trace_state : String
deriving DecidableEq, Repr

/-- A finished (readable) span as the processor sees it: its context, its
parent context and its attribute mapping. -/
structure RSpan where
  context : SpanCtx
  parent : Option SpanCtx
  attributes : List (String × J)

/-- Embedding of `_LogfireStreamingProcessor._store_request`: push the
request span's `(trace_id, span_id, now)` onto the key's queue, then run
`_cleanup`. -/
def storeRequest (makeKey : String → String) (now : Int) (requestData : String)
    (span : RSpan) (p : Pending) : Pending :=
  let key := makeKey requestData
  let entry : Entry := ⟨span.context.trace_id, span.context.span_id, now⟩
  cleanup now (appendEntry key entry p)

/-- Embedding of `_LogfireStreamingProcessor._reparent_response` on its
success path: pop the oldest entry for the key (if any); if the response
already carries the popped trace id, consume without mutating; otherwise
rewrite the span's context to the popped trace id (keeping its own span id)
and its parent to `(trace_id, popped span_id)` marked remote with sampled
flags. The `except` branch (a failed attribute write, which re-queues the
entry) models a Python runtime failure and is not reachable here. -/
def reparentResponse (makeKey : String → String) (requestData : String)
    (span : RSpan) (p : Pending) : Pending × RSpan :=
  let key := makeKey requestData
  match pget p key with
  | none => (p, span)
  | some [] => (p, span)
  | some (entry :: _) =>
      let p₁ := popFront key p
      if span.context.trace_id = entry.trace_id then (p₁, span)
      else
        (p₁,
         { span with
            context := { trace_id := entry.trace_id,
                         span_id := span.context.span_id,
                         is_remote := span.context.is_remote,
                         trace_flags := span.context.trace_flags,
                         trace_state := span.context.trace_state },
            parent := some { trace_id := entry.trace_id,
                             span_id := entry.span_id,
                             is_remote := true,
                             trace_flags := 1,
                             trace_state := "" } })

/-- Python `isinstance(attrs.get(k), str)`. -/
def strAttr (attrs : List (String × J)) (k : String) : Option String :=
  match alookup attrs k with
  | some (J.str s) => some s
  | _ => none

/-- Embedding of `_LogfireStreamingProcessor.on_end`: classify the finished
span as a request half or a response half and dispatch. Returns the updated
pending map and the (possibly reparented) span. -/
def onEnd (makeKey : String → String) (now : Int) (p : Pending) (span : RSpan) :
    Pending × RSpan :=
  if span.attributes.isEmpty then (p, span)
  else
    match strAttr span.attributes "logfire.span_type" with
    | none => (p, span)
    | some spanType =>
        match strAttr span.attributes "request_data" with
        | none => (p, span)
        | some requestData =>
            let hasResponse := (strAttr span.attributes "response_data").isSome
            if spanType = "span" && !hasResponse then
              (storeRequest makeKey now requestData span p, span)
            else if spanType = "log" && hasResponse then
              reparentResponse makeKey requestData span p
            else (p, span)

/-! ## Client instrumentor call wrappers (bedrock.py)

Each wrapped call is modelled as a function from the outcome of the
underlying call (`Except Exc response`) to the ordered list of span
operations the wrapper performs plus the value it returns or re-raises.
Event payloads are JSON-encoded by the source (`json.dumps(encode_value …)`);
the trace records which events are added by name, and attribute writes with
their structural values. -/

/-- A Python exception, identified by its type and message: re-raising
"unchanged" means the same `Exc` value comes back out. -/
structure Exc where
  ty : String
  msg : String
deriving DecidableEq, Repr

/-- OTel status codes. -/
inductive StatusCode where
  | unset
  | ok
  | error
deriving DecidableEq, Repr

/-- One observable span operation performed by a wrapper, in program order.
`closeInner` is the delegated `self._inner.close()` call. -/
inductive SpanAction where
  | setAttr (key : String) (value : J)
  | addEvent (name : String)
  | setStatus (code : StatusCode) (message : String)
  | recordException (ty msg : String)
  | endSpan
  | detach
  | closeInner

/-- Classifier: is this action a `span.add_event` call? -/
def SpanAction.isAddEvent : SpanAction → Bool
  | .addEvent _ => true
  | _ => false

/-- Classifier: is this action a `span.end()` call? -/
def SpanAction.isEndSpan : SpanAction → Bool
  | .endSpan => true
  | _ => false

/-- Classifier: is this action a `context.detach` call? -/
def SpanAction.isDetach : SpanAction → Bool
  | .detach => true
  | _ => false

/-- Classifier: is this action a `span.set_attribute` call? -/
def SpanAction.isSetAttr : SpanAction → Bool
  | .setAttr _ _ => true
  | _ => false

/-- The attribute writes contained in an action trace, in order. -/
def attrWrites (actions : List SpanAction) : List (String × J) :=
  actions.filterMap fun a =>
    match a with
    | .setAttr k v => some (k, v)
    | _ => none

/-- Remaining attribute keys from `_constants.py`. -/
def SYSTEM : String := "gen_ai.system"

def PROVIDER_NAME : String := "gen_ai.provider.name"

def OPERATION : String := "gen_ai.operation.name"

def REQUEST_MODEL : String := "gen_ai.request.model"

def TOOL_DEFINITIONS : String := "gen_ai.tool.definitions"

def TEMPERATURE : String := "gen_ai.request.temperature"

def TOP_P : String := "gen_ai.request.top_p"

def MAX_TOKENS : String := "gen_ai.request.max_tokens"

def SYSTEM_VALUE : String := "aws_bedrock"

/-- Projection of a value expected to be a list. -/
def J.asArr : J → List J
  | .arr elems => elems
  | _ => []

/-- Python `kwargs.get("modelId", "unknown")`. A non-string model id is only
ever interpolated into the span name. -/
def modelIdOf (kwargs : List (String × J)) : String :=
  match alookup kwargs "modelId" with
  | some (J.str s) => s
  | some _ => ""
  | none => "unknown"

/-- Python `msg.get("role") == r`. -/
def roleIs (msg : J) (r : String) : Bool :=
  match alookup msg.asObj "role" with
  | some (J.str s) => s = r
  | _ => false

/-- Embedding of `_set_request_attrs`. The tool-definition attribute value is
recorded structurally (the source stores its `json.dumps` encoding). -/
def setRequestAttrs (modelId : String) (kwargs : List (String × J)) : List SpanAction :=
  [SpanAction.setAttr SYSTEM (J.str SYSTEM_VALUE),
   SpanAction.setAttr PROVIDER_NAME (J.str SYSTEM_VALUE),
   SpanAction.setAttr OPERATION (J.str "chat"),
   SpanAction.setAttr REQUEST_MODEL (J.str modelId)]
  ++ (let toolConfig := alookup kwargs "toolConfig"
      if jTruthy toolConfig then
        let tc := (toolConfig.getD J.null).asObj
        let tools := ((alookup tc "tools").getD (J.arr [])).asArr
        let defs :=
          match alookup tc "toolChoice" with
          | some choice =>
              if jTruthy (some choice) then tools ++ [J.obj [("toolChoice", choice)]]
              else tools
          | none => tools
        [SpanAction.setAttr TOOL_DEFINITIONS (J.arr defs)]
      else [])
  ++ (let inf := alookup kwargs "inferenceConfig"
      if jTruthy inf then
        let infObj := (inf.getD J.null).asObj
        (match alookup infObj "temperature" with
         | some v => [SpanAction.setAttr TEMPERATURE v] | none => [])
        ++ (match alookup infObj "topP" with
         | some v => [SpanAction.setAttr TOP_P v] | none => [])
        ++ (match alookup infObj "maxTokens" with
         | some v => [SpanAction.setAttr MAX_TOKENS v] | none => [])
      else [])

/-- Embedding of `_set_response_attrs`. -/
def setResponseAttrs (modelId : String) (response : List (String × J)) : List SpanAction :=
  [SpanAction.setAttr RESPONSE_MODEL (J.str modelId)]
  ++ (let usage := agetObj response "usage"
      if usage.isEmpty then []
      else (setUsageAttrs usage).map fun kv => SpanAction.setAttr kv.1 kv.2)
  ++ (let stop := alookup response "stopReason"
      if jTruthy stop then [SpanAction.setAttr FINISH_REASONS (J.arr [stop.getD J.null])]
      else [])

/-- Embedding of `_build_input_messages`. -/
def buildInputMessages (kwargs : List (String × J)) : List J :=
  (let system := alookup kwargs "system"
   if jTruthy system then [J.obj [("role", J.str "system"), ("content", system.getD J.null)]]
   else [])
  ++ ((alookup kwargs "messages").getD (J.arr [])).asArr

/-- Embedding of `_extract_tool_results`: collect tool-result blocks in
either wire shape from the input messages. -/
def extractToolResults (kwargs : List (String × J)) : List J :=
  (((alookup kwargs "messages").getD (J.arr [])).asArr).foldl
    (fun acc msg =>
      match (alookup msg.asObj "content").getD (J.arr []) with
      | J.arr blocks =>
          acc ++ blocks.filter (fun b =>
            match b with
            | J.obj fields =>
                akey fields "toolResult" ||
                (match alookup fields "type" with
                 | some (J.str t) => t = "tool_result"
                 | _ => false)
            | _ => false)
      | _ => acc)
    []

/-- Embedding of `_emit_input_events`: the system-message preview (when the
first message is a system message) and the last user message preview. -/
def emitInputEvents (inputMsgs : List J) : List SpanAction :=
  (match inputMsgs with
   | m :: _ => if roleIs m "system" then [SpanAction.addEvent "gen_ai.system.message"] else []
   | [] => [])
  ++ (if inputMsgs.reverse.any (fun m => roleIs m "user")
      then [SpanAction.addEvent "gen_ai.user.message"] else [])

/-- Embedding of `_emit_span_events`: the combined details event (with input
previews when input messages are provided) followed by the choice event.
The unused payload parameters keep the call shape of the source. -/
def emitSpanEvents (_outputMsg : J) (_stopReason : Option J)
    (_toolResults : Option (List J)) (inputMsgs : Option (List J)) : List SpanAction :=
  (match inputMsgs with
   | some msgs =>
      SpanAction.addEvent "gen_ai.client.inference.operation.details" :: emitInputEvents msgs
   | none => [SpanAction.addEvent "gen_ai.client.inference.operation.details"])
  ++ [SpanAction.addEvent "gen_ai.choice"]

/-- Embedding of `_emit_converse_events`. -/
def emitConverseEvents (kwargs response : List (String × J)) : List SpanAction :=
  let inputMsgs := buildInputMessages kwargs
  let outputMsg := J.obj (agetObj (agetObj response "output") "message")
  let toolResults := extractToolResults kwargs
  emitSpanEvents outputMsg (alookup response "stopReason")
    (if toolResults.isEmpty then none else some toolResults) (some inputMsgs)

/-- Embedding of `_wrap_converse.instrumented_converse` (sync
single-response shape): the span operations in order, and the returned or
re-raised outcome. The enclosing `with start_as_current_span` ends the span
on both exits. -/
def instrumentedConverse (kwargs : List (String × J)) (original : Except Exc (List (String × J))) :
    List SpanAction × Except Exc (List (String × J)) :=
  let modelId := modelIdOf kwargs
  let pre := setRequestAttrs modelId kwargs
  match original with
  | .error e =>
      (pre ++ [SpanAction.setStatus .error e.msg,
               SpanAction.recordException e.ty e.msg, SpanAction.endSpan],
       .error e)
  | .ok response =>
      (pre ++ setResponseAttrs modelId response ++ emitConverseEvents kwargs response
           ++ [SpanAction.setStatus .ok "", SpanAction.endSpan],
       .ok response)

/-! ### `_ConverseStreamWrapper` (sync streaming shape) -/

/-- Mutable state of `_ConverseStreamWrapper` (the span and context token
are implicit in the action trace). -/
structure ConverseStreamWrapper where
  ended : Bool
  acc : ConverseAccumulator
  tool_results : List J

/-- Embedding of the body of `_ConverseStreamWrapper._finalize` past the
`_ended` guard: usage/finish-reason attributes, the output-only details and
choice events, OK status, then `span.end()` and `context.detach`. -/
def emitStreamFinalizeActions (acc : ConverseAccumulator) (toolResults : List J) :
    List SpanAction :=
  (if acc.usage.isEmpty then []
   else (setUsageAttrs acc.usage).map fun kv => SpanAction.setAttr kv.1 kv.2)
  ++ (if jTruthy acc.stop_reason
      then [SpanAction.setAttr FINISH_REASONS (J.arr [acc.stop_reason.getD J.null])]
      else [])
  ++ emitSpanEvents (J.obj [("role", J.str "assistant"), ("content", J.arr acc.blocks)])
       acc.stop_reason (if toolResults.isEmpty then none else some toolResults) none
  ++ [SpanAction.setStatus .ok "", SpanAction.endSpan, SpanAction.detach]

/-- Embedding of `_ConverseStreamWrapper._finalize`: a no-op once `_ended`
is set. -/
def wrapperFinalize (w : ConverseStreamWrapper) : ConverseStreamWrapper × List SpanAction :=
  if w.ended then (w, [])
  else ({ w with ended := true }, emitStreamFinalizeActions w.acc w.tool_results)

/-- Embedding of `_ConverseStreamWrapper._on_error`. -/
def wrapperOnError (w : ConverseStreamWrapper) (e : Exc) :
    ConverseStreamWrapper × List SpanAction :=
  if w.ended then (w, [])
  else ({ w with ended := true },
        [SpanAction.setStatus .error e.msg, SpanAction.recordException e.ty e.msg,
         SpanAction.endSpan, SpanAction.detach])

/-- Embedding of `_ConverseStreamWrapper.close`: delegate to the inner
stream's `close`, then finalize. -/
def wrapperClose (w : ConverseStreamWrapper) : ConverseStreamWrapper × List SpanAction :=
  let r := wrapperFinalize w
  (r.1, SpanAction.closeInner :: r.2)

/-- Outcome of one `next(self._inner)` call on the underlying stream. -/
inductive StreamItem where
  | chunk (c : J)
  | exhausted
  | failed (e : Exc)

/-- Embedding of `_ConverseStreamWrapper.__next__`: a chunk is fed to the
accumulator; `StopIteration` finalizes; an underlying error runs
`_on_error`. In the last two cases the exception is then re-raised. -/
def wrapperNext (jsonLoads : String → Option J) (w : ConverseStreamWrapper)
    (item : StreamItem) : ConverseStreamWrapper × List SpanAction :=
  match item with
  | .chunk c => ({ w with acc := processEvent jsonLoads w.acc c.asObj }, [])
  | .exhausted => wrapperFinalize w
  | .failed e => wrapperOnError w e

/-- One externally triggerable operation on the stream wrapper. -/
inductive WrapperOp where
  | next (item : StreamItem)
  | close
  | onError (e : Exc)

/-- Dispatch of one operation on the wrapper. -/
def wrapperStep (jsonLoads : String → Option J) (w : ConverseStreamWrapper) :
    WrapperOp → ConverseStreamWrapper × List SpanAction
  | .next item => wrapperNext jsonLoads w item
  | .close => wrapperClose w
  | .onError e => wrapperOnError w e

/-- Result of the wrapped `converse_stream` call. -/
inductive StreamCallResult where
  | failed (e : Exc)
  | plain (response : List (String × J))
  | wrapped (response : List (String × J)) (w : ConverseStreamWrapper)

/-- Embedding of `_wrap_converse_stream.instrumented_converse_stream`: the
span starts and attaches before the call, request attributes and the input
details/preview events are emitted immediately; an underlying failure marks
the span, ends it, detaches and re-raises; a response without a `stream`
member closes the span; otherwise the stream is wrapped. -/
def instrumentedConverseStream (kwargs : List (String × J))
    (original : Except Exc (List (String × J))) : List SpanAction × StreamCallResult :=
  let modelId := modelIdOf kwargs
  let inputMsgs := buildInputMessages kwargs
  let pre := setRequestAttrs modelId kwargs
    ++ [SpanAction.addEvent "gen_ai.client.inference.operation.details"]
    ++ emitInputEvents inputMsgs
  match original with
  | .error e =>
      (pre ++ [SpanAction.setStatus .error e.msg,
               SpanAction.recordException e.ty e.msg, SpanAction.endSpan, SpanAction.detach],
       .failed e)
  | .ok response =>
      match alookup response "stream" with
      | none => (pre ++ [SpanAction.endSpan, SpanAction.detach], .plain response)
      | some J.null => (pre ++ [SpanAction.endSpan, SpanAction.detach], .plain response)
      | some _ =>
          (pre, .wrapped response
            ⟨false, ConverseAccumulator.init, extractToolResults kwargs⟩)

/-! ### InvokeModel shapes (raw protocol) -/

/-- Character-list prefix test. -/
def listIsPrefix : List Char → List Char → Bool
  | [], _ => true
  | _ :: _, [] => false
  | a :: as, b :: bs => a = b && listIsPrefix as bs

/-- Character-list infix test. -/
def listIsInfix (sub : List Char) : List Char → Bool
  | [] => listIsPrefix sub []
  | c :: cs => listIsPrefix sub (c :: cs) || listIsInfix sub cs

/-- Python `sub in s` on strings. -/
def strContains (s sub : String) : Bool :=
  listIsInfix sub.data s.data

/-- Embedding of `_detect_model_family`. -/
def detectModelFamily (modelId : String) : Option String :=
  let lower := modelId.toLower
  if strContains lower "claude" || strContains lower "anthropic" then some "claude"
  else if strContains lower "nova" then some "nova"
  else none

/-- Embedding of `_parse_invoke_model_request`: decode the JSON request body;
a decode failure or a non-dict body yields the empty dict (a non-dict decode
result makes every later `.get` on it fail inside a caught telemetry
try/except, which is equivalent at this granularity). -/
def parseInvokeModelRequest (jsonLoads : String → Option J)
    (kwargs : List (String × J)) : List (String × J) :=
  match alookup kwargs "body" with
  | some (J.str s) =>
      match jsonLoads s with
      | some (J.obj fields) => fields
      | _ => []
  | some (J.obj fields) => fields
  | _ => []

/-- Embedding of `_build_invoke_model_input_messages`. -/
def buildInvokeModelInputMessages (reqBody : List (String × J)) : List J :=
  (match alookup reqBody "system" with
   | some (J.str s) =>
      [J.obj [("role", J.str "system"), ("content", J.arr [J.obj [("text", J.str s)]])]]
   | some other => [J.obj [("role", J.str "system"), ("content", other)]]
   | none => [])
  ++ ((alookup reqBody "messages").getD (J.arr [])).asArr

/-- Embedding of `_emit_invoke_model_claude_events`. -/
def emitInvokeModelClaudeEvents (jsonLoads : String → Option J)
    (kwargs body : List (String × J)) : List SpanAction :=
  let reqBody := parseInvokeModelRequest jsonLoads kwargs
  let inputMsgs := buildInvokeModelInputMessages reqBody
  let outputMsg := J.obj
    [("role", (alookup body "role").getD (J.str "assistant")),
     ("content", (alookup body "content").getD (J.arr []))]
  let toolResults := extractToolResults reqBody
  emitSpanEvents outputMsg (alookup body "stop_reason")
    (if toolResults.isEmpty then none else some toolResults) (some inputMsgs)

/-- Embedding of `_emit_invoke_model_nova_events`. -/
def emitInvokeModelNovaEvents (jsonLoads : String → Option J)
    (kwargs body : List (String × J)) : List SpanAction :=
  let reqBody := parseInvokeModelRequest jsonLoads kwargs
  let inputMsgs := buildInvokeModelInputMessages reqBody
  let outputMsg := J.obj (agetObj (agetObj body "output") "message")
  let toolResults := extractToolResults reqBody
  emitSpanEvents outputMsg (alookup body "stopReason")
    (if toolResults.isEmpty then none else some toolResults) (some inputMsgs)

/-- The four bare request attributes set by both InvokeModel wrappers. -/
def invokeModelRequestAttrs (modelId : String) : List SpanAction :=
  [SpanAction.setAttr SYSTEM (J.str SYSTEM_VALUE),
   SpanAction.setAttr PROVIDER_NAME (J.str SYSTEM_VALUE),
   SpanAction.setAttr OPERATION (J.str "chat"),
   SpanAction.setAttr REQUEST_MODEL (J.str modelId)]

/-- The Nova branch of `_wrap_invoke_model`. -/
def novaInvokeActions (jsonLoads : String → Option J) (modelId : String)
    (kwargs body : List (String × J)) : List SpanAction :=
  [SpanAction.setAttr RESPONSE_MODEL (J.str modelId)]
  ++ (let usage := agetObj body "usage"
      if usage.isEmpty then []
      else (setUsageAttrs usage).map fun kv => SpanAction.setAttr kv.1 kv.2)
  ++ (let stop := alookup body "stopReason"
      if jTruthy stop then [SpanAction.setAttr FINISH_REASONS (J.arr [stop.getD J.null])]
      else [])
  ++ emitInvokeModelNovaEvents jsonLoads kwargs body

/-- The Claude branch of `_wrap_invoke_model`. -/
def claudeInvokeActions (jsonLoads : String → Option J) (modelId : String)
    (kwargs body : List (String × J)) : List SpanAction :=
  [SpanAction.setAttr RESPONSE_MODEL ((alookup body "model").getD (J.str modelId))]
  ++ (let usage := agetObj body "usage"
      if usage.isEmpty then []
      else (setInvokeModelUsageAttrs usage).map fun kv => SpanAction.setAttr kv.1 kv.2)
  ++ (let stop := alookup body "stop_reason"
      if jTruthy stop then [SpanAction.setAttr FINISH_REASONS (J.arr [stop.getD J.null])]
      else [])
  ++ emitInvokeModelClaudeEvents jsonLoads kwargs body

/-- Embedding of `_wrap_invoke_model.instrumented_invoke_model` (raw-protocol
single-response shape). The streamed response body is read, JSON-decoded for
telemetry and re-buffered so the caller still receives it; the returned
response is unchanged either way. -/
def instrumentedInvokeModel (jsonLoads : String → Option J)
    (kwargs : List (String × J)) (original : Except Exc (List (String × J))) :
    List SpanAction × Except Exc (List (String × J)) :=
  let modelId := modelIdOf kwargs
  let pre := invokeModelRequestAttrs modelId
  match original with
  | .error e =>
      (pre ++ [SpanAction.setStatus .error e.msg,
               SpanAction.recordException e.ty e.msg, SpanAction.endSpan],
       .error e)
  | .ok response =>
      let bodyRaw := match alookup response "body" with
        | some (J.str s) => s
        | _ => ""
      match jsonLoads bodyRaw with
      | none => (pre ++ [SpanAction.setStatus .ok "", SpanAction.endSpan], .ok response)
      | some bodyJ =>
          let body := bodyJ.asObj
          let famActions :=
            match detectModelFamily modelId with
            | some "nova" => novaInvokeActions jsonLoads modelId kwargs body
            | some "claude" => claudeInvokeActions jsonLoads modelId kwargs body
            | _ => []
          (pre ++ famActions ++ [SpanAction.setStatus .ok "", SpanAction.endSpan], .ok response)

/-- Mutable state of `_InvokeModelStreamWrapper`: raw chunk payloads are
accumulated and only parsed at finalize time. -/
structure InvokeModelStreamWrapper where
  ended : Bool
  chunks : List String
  req_body : List (String × J)
  family : Option String

/-- Embedding of `_wrap_invoke_model_stream.instrumented_invoke_model_stream`
(raw-protocol streaming shape), up to handing back the wrapped body. -/
inductive InvokeStreamCallResult where
  | failed (e : Exc)
  | plain (response : List (String × J))
  | wrapped (response : List (String × J)) (w : InvokeModelStreamWrapper)

/-- The call wrapper for `invoke_model_with_response_stream`. -/
def instrumentedInvokeModelStream (jsonLoads : String → Option J)
    (kwargs : List (String × J)) (original : Except Exc (List (String × J))) :
    List SpanAction × InvokeStreamCallResult :=
  let modelId := modelIdOf kwargs
  let pre := invokeModelRequestAttrs modelId
  match original with
  | .error e =>
      (pre ++ [SpanAction.setStatus .error e.msg,
               SpanAction.recordException e.ty e.msg, SpanAction.endSpan, SpanAction.detach],
       .failed e)
  | .ok response =>
      match alookup response "body" with
      | none => (pre ++ [SpanAction.endSpan, SpanAction.detach], .plain response)
      | some J.null => (pre ++ [SpanAction.endSpan, SpanAction.detach], .plain response)
      | some _ =>
          (pre, .wrapped response
            ⟨false, [], parseInvokeModelRequest jsonLoads kwargs,
             detectModelFamily modelId⟩)

/-! ## Instrumentation registry (`instrumentation.instrument`) -/

/-- The framework identifiers `instrument` dispatches on
(`config.Frameworks`). -/
def knownFrameworks : List String :=
  ["strands", "langchain", "langgraph", "crewai", "autogen", "openai-agents",
   "pydantic-ai", "openai", "anthropic", "google_genai", "google-adk"]

/-- Frameworks whose branch body is `pass` (they use the ambient global
provider); all other known frameworks attach an instrumentor, which can
raise. -/
def hasSideEffect (framework : String) : Bool :=
  framework ∈ knownFrameworks && framework ≠ "strands" && framework ≠ "google-adk"

/-- Outcome of the framework-specific instrumentation side effect (the
external instrumentor attach call). -/
inductive SideEffect where
  | ok
  | importError (msg : String)
  | failure (msg : String)
deriving DecidableEq, Repr

/-- Result of one `instrument` call: the new instrumented set, the returned
boolean, and whether the framework-specific side effect was attempted. -/
structure InstrumentResult where
  instrumented : List String
  returned : Bool
  ranSideEffect : Bool
deriving DecidableEq, Repr

/-- Embedding of `instrumentation.instrument`. The global `_instrumented`
set is threaded explicitly (as a duplicate-free list); `effect` is the
outcome the framework-specific side effect would have if attempted. -/
def instrument (instrumented : List String) (framework : String)
    (effect : SideEffect) : InstrumentResult :=
  if framework ∈ instrumented then
    { instrumented := instrumented, returned := false, ranSideEffect := false }
  else
    let marked := instrumented ++ [framework]
    if framework ∈ knownFrameworks then
      if hasSideEffect framework then
        match effect with
        | .ok => { instrumented := marked, returned := true, ranSideEffect := true }
        | _ =>
            -- ImportError and Exception handlers both discard and return False
            { instrumented := marked.filter (· ≠ framework), returned := false,
              ranSideEffect := true }
      else { instrumented := marked, returned := true, ranSideEffect := false }
    else
      -- unknown framework: un-mark and return False without any side effect
      { instrumented := marked.filter (· ≠ framework), returned := false,
        ranSideEffect := false }

/-! ## Pipeline construction and processor ordering

Modelled from the spec: the registration of the streaming reparenting
processor on the tracer provider is not part of the provided source tree
(the provided `telemetry/__init__.py` is an earlier draft: the package tests
need `_ContextSpanProcessor`, `_user_id_var` and `_session_id_var` from
`sideseat.telemetry`, none of which exist in that draft). Per the spec, the
reparenting processor "must be registered on the tracing pipeline *before*
any batching/export processor, since mutation must complete before the span
is handed to an export queue (processors run in registration order on span
completion)". -/

/-- A span processor registered on the tracer provider. -/
inductive PipelineProcessor where
  | streamingReparenter
  | batchExporter
deriving DecidableEq, Repr

/-- Modelled from the spec: the processor registration order produced by
telemetry pipeline construction — the streaming reparenting processor is
added to the provider before the OTLP batching/export processor. -/
def initTracePipeline : List PipelineProcessor :=
  [PipelineProcessor.streamingReparenter, PipelineProcessor.batchExporter]

/-- Shared pipeline state: the reparenter's pending map and the batch
exporter's queue of finished spans. -/
structure PipelineState where
  pending : Pending
  exportQueue : List RSpan

/-- Effect of one processor's `on_end` callback. Processors receive the same
span object (the batch processor stores a reference, not a copy), so the
span value is threaded through. -/
def procOnEnd (makeKey : String → String) (now : Int) :
    PipelineProcessor → RSpan × PipelineState → RSpan × PipelineState
  | .streamingReparenter, (span, st) =>
      let r := onEnd makeKey now st.pending span
      (r.2, { st with pending := r.1 })
  | .batchExporter, (span, st) =>
      (span, { st with exportQueue := st.exportQueue ++ [span] })

/-- Span completion: `SynchronousMultiSpanProcessor.on_end` iterates the
registered processors in insertion order. -/
def pipelineOnEnd (makeKey : String → String) (now : Int) (st : PipelineState)
    (span : RSpan) : RSpan × PipelineState :=
  initTracePipeline.foldl (fun acc proc => procOnEnd makeKey now proc acc) (span, st)

/-! ## Ambient session/user attribution

Modelled from the spec: the scoped context variables and the span-start
processor that injects them are not part of the provided source tree (the
package tests exercise `_user_id_var`, `_session_id_var` and
`_ContextSpanProcessor.on_start` setting `user.id` / `session.id`, and
`TelemetryClient.span(name, user_id=…, session_id=…)` setting both
variables on entry and restoring the previous values on every exit path,
but the provided `telemetry/__init__.py` draft lacks them). Context
variables are task-local: each logical operation carries its own
`AmbientCtx` value, never a global mutable field. -/

/-- The ambient attribution context of one logical operation (the pair of
scoped context variables). -/
structure AmbientCtx where
  userId : Option String
  sessionId : Option String
deriving DecidableEq, Repr

/-- Modelled from the spec: `_ContextSpanProcessor.on_start` reads the two
context variables and sets the `user.id` / `session.id` span attributes for
whichever are present. -/
def contextOnStart (c : AmbientCtx) : List (String × String) :=
  (match c.userId with
   | some u => [("user.id", u)] | none => [])
  ++ (match c.sessionId with
   | some s => [("session.id", s)] | none => [])

/-- Modelled from the spec: entering `TelemetryClient.span` sets each
context variable for which an argument was supplied, stacking over the
enclosing scope. -/
def enterSpanScope (c : AmbientCtx) (userId sessionId : Option String) : AmbientCtx :=
  { userId := match userId with | some u => some u | none => c.userId,
    sessionId := match sessionId with | some s => some s | none => c.sessionId }

/-- Outcome of the body of a scoped span: normal return or an exception. -/
inductive BodyOutcome (α : Type) where
  | ok (value : α)
  | raised (e : Exc)

/-- Modelled from the spec: one run of the scoped span helper for a single
logical operation. Returns the attributes injected at span start, the
propagated body outcome, and the ambient context after exit, which is
restored to the enclosing value on every exit path (normal and
exceptional). -/
def spanScoped {α : Type} (c : AmbientCtx) (userId sessionId : Option String)
    (body : AmbientCtx → BodyOutcome α) :
    List (String × String) × BodyOutcome α × AmbientCtx :=
  let inner := enterSpanScope c userId sessionId
  let startAttrs := contextOnStart inner
  (startAttrs, body inner, c)

/-! ## Predicates used by the theorem statements -/

/-- The span shape `on_end` classifies as a request half:
`logfire.span_type="span"`, a string `request_data`, no string
`response_data`. -/
def isRequestHalfShape (s : RSpan) (rd : String) : Prop :=
  strAttr s.attributes "logfire.span_type" = some "span"
  ∧ strAttr s.attributes "request_data" = some rd
  ∧ strAttr s.attributes "response_data" = none

/-- The span shape `on_end` classifies as a response half:
`logfire.span_type="log"`, a string `request_data`, a string
`response_data`. -/
def isResponseHalfShape (s : RSpan) (rd : String) : Prop :=
  strAttr s.attributes "logfire.span_type" = some "log"
  ∧ strAttr s.attributes "request_data" = some rd
  ∧ (strAttr s.attributes "response_data").isSome = true

/-- No key of the pending map holds an empty queue (maintained by the
processor: emptied keys are deleted). -/
def allNonempty (p : Pending) : Prop :=
  ∀ kv ∈ p, kv.2 ≠ []

/-- Every pending entry is within the TTL at time `now`. -/
def allFresh (now : Int) (p : Pending) : Prop :=
  ∀ kv ∈ p, ∀ e ∈ kv.2, now - e.ts ≤ TTL

/-- Every pending entry carries a clock reading no later than `now`
(monotonic clock: stored timestamps are earlier reads). -/
def allPast (now : Int) (p : Pending) : Prop :=
  ∀ kv ∈ p, ∀ e ∈ kv.2, e.ts ≤ now

/-- Every queue is ordered by timestamp (FIFO appends of a monotonic
clock keep each queue nondecreasing). -/
def perKeySorted (p : Pending) : Prop :=
  ∀ kv ∈ p, kv.2.Pairwise (fun a b => a.ts ≤ b.ts)

/-- Keys of the pending map are distinct (it models a Python dict). -/
def keysNodup (p : Pending) : Prop :=
  (p.map Prod.fst).Nodup

/-- Membership of an entry somewhere in the pending map. -/
def entryMem (e : Entry) (p : Pending) : Prop :=
  ∃ kv ∈ p, e ∈ kv.2

/-- The entry one capacity-eviction step removes: the head of the queue of
the key selected by the `min` scan. -/
def evictedEntry (p : Pending) : Option Entry :=
  match oldestKey p with
  | none => none
  | some k => (pget p k).bind List.head?

/-! ## Association-list lemmas -/

theorem alookup_append_left {l₁ l₂ : List (String × J)} {k : String} {v : J}
    (h : alookup l₁ k = some v) : alookup (l₁ ++ l₂) k = some v := by
  induction l₁ with
  | nil => simp [alookup] at h
  | cons kv rest ih =>
      rw [List.cons_append]
      rw [alookup] at h ⊢
      by_cases hk : kv.1 = k
      · rw [if_pos hk] at h ⊢; exact h
      · rw [if_neg hk] at h ⊢; exact ih h

theorem alookup_append_right {l₁ l₂ : List (String × J)} {k : String}
    (h : alookup l₁ k = none) : alookup (l₁ ++ l₂) k = alookup l₂ k := by
  induction l₁ with
  | nil => simp
  | cons kv rest ih =>
      rw [List.cons_append]
      rw [alookup] at h ⊢
      by_cases hk : kv.1 = k
      · rw [if_pos hk] at h; exact absurd h (by simp)
      · rw [if_neg hk] at h ⊢; exact ih h

theorem alookup_aset_self (d : List (String × J)) (k : String) (v : J) :
    alookup (aset d k v) k = some v := by
  induction d with
  | nil => simp [aset, alookup]
  | cons kv rest ih =>
      rw [aset]
      split
      · simp [alookup]
      · rw [alookup]
        split
        · next heq => next hne => exact absurd heq hne
        · exact ih

theorem aset_ne_nil (d : List (String × J)) (k : String) (v : J) :
    aset d k v ≠ [] := by
  cases d with
  | nil => simp [aset]
  | cons kv rest =>
      rw [aset]
      split <;> simp

theorem alookup_nil_of_mem_ne {l : List (String × J)} {k : String}
    (h : ∀ kv ∈ l, kv.1 ≠ k) : alookup l k = none := by
  induction l with
  | nil => rfl
  | cons kv rest ih =>
      rw [alookup]
      split
      · next heq => exact absurd heq (h kv (by simp))
      · exact ih fun x hx => h x (by simp [hx])

theorem alookup_mem {l : List (String × J)} {k : String} {v : J}
    (h : alookup l k = some v) : (k, v) ∈ l := by
  induction l with
  | nil => simp [alookup] at h
  | cons kv rest ih =>
      rw [alookup] at h
      split at h
      · next heq => cases h; cases kv; cases heq; simp
      · simp [ih h]

/-- Claim C10 relies on the last `set_attribute` for the output-token key
being the metrics-derived one. -/
theorem finalAttr_usage_output {u : List (String × J)} {v : J}
    (h : alookup u "output_tokens" = some v) :
    finalAttr (setInvokeModelUsageAttrs u) OUTPUT_TOKENS = some v := by
  unfold setInvokeModelUsageAttrs finalAttr
  rw [h]
  rcases h1 : alookup u "input_tokens" with _ | v₁ <;>
    rcases h3 : alookup u "cache_read_input_tokens" with _ | v₃ <;>
      rcases h4 : alookup u "cache_creation_input_tokens" with _ | v₄ <;>
        simp [alookup, INPUT_TOKENS, OUTPUT_TOKENS, CACHE_READ_TOKENS, CACHE_WRITE_TOKENS]

/-- Processing a terminal `message_stop` event carrying invocation metrics
overwrites the accumulated `output_tokens` usage entry. -/
theorem processClaude_messageStop_usage (jsonLoads : String → Option J)
    (st : ClaudeStreamState) (metrics : List (String × J)) {v : J}
    (hne : metrics ≠ []) (hout : alookup metrics "outputTokenCount" = some v) :
    alookup (processClaudeEvent jsonLoads st
        [("type", J.str "message_stop"),
         ("amazon-bedrock-invocationMetrics", J.obj metrics)]).usage
      "output_tokens" = some v
    ∧ (processClaudeEvent jsonLoads st
        [("type", J.str "message_stop"),
         ("amazon-bedrock-invocationMetrics", J.obj metrics)]).usage ≠ [] := by
  rw [processClaudeEvent]
  simp [alookup, agetObj, J.asObj, J.asStr, hne]
  rw [hout]
  exact ⟨alookup_aset_self _ _ _, aset_ne_nil _ _ _⟩

/-- C10: for every Format B stream containing a `message_delta` reporting
`output_tokens = 5` and terminated by a `message_stop` whose
`amazon-bedrock-invocationMetrics` reports `outputTokenCount = 7`, the
finalized output-token usage attribute equals 7. -/
theorem formatB_terminal_metrics_override
    (jsonLoads : String → Option J) (pre mid : List (List (String × J)))
    (metrics : List (String × J))
    (hout : alookup metrics "outputTokenCount" = some (J.int 7)) :
    finalAttr
      (finalizeClaudeUsageAttrs jsonLoads
        (pre
          ++ [[("type", J.str "message_delta"),
               ("usage", J.obj [("output_tokens", J.int 5)])]]
          ++ mid
          ++ [[("type", J.str "message_stop"),
               ("amazon-bedrock-invocationMetrics", J.obj metrics)]]))
      OUTPUT_TOKENS = some (J.int 7) := by
  have hne : metrics ≠ [] := by
    intro h
    rw [h] at hout
    simp [alookup] at hout
  unfold finalizeClaudeUsageAttrs
  rw [show pre ++ [[("type", J.str "message_delta"),
        ("usage", J.obj [("output_tokens", J.int 5)])]] ++ mid
        ++ [[("type", J.str "message_stop"),
             ("amazon-bedrock-invocationMetrics", J.obj metrics)]]
      = (pre ++ [[("type", J.str "message_delta"),
          ("usage", J.obj [("output_tokens", J.int 5)])]] ++ mid)
        ++ [[("type", J.str "message_stop"),
             ("amazon-bedrock-invocationMetrics", J.obj metrics)]] by simp]
  rw [processClaudeEvents, List.foldl_append, List.foldl_cons, List.foldl_nil]
  obtain ⟨h7, hnz⟩ := processClaude_messageStop_usage jsonLoads
    (List.foldl (processClaudeEvent jsonLoads) ClaudeStreamState.init
      (pre ++ [[("type", J.str "message_delta"),
        ("usage", J.obj [("output_tokens", J.int 5)])]] ++ mid))
    metrics hne hout
  simp only [List.isEmpty_eq_true, hnz, if_false]
  exact finalAttr_usage_output h7

/-- C10 witness: a concrete stream with `output_tokens = 5` in a
`message_delta` and `outputTokenCount = 7` in the terminal metrics
finalizes with 7. -/
theorem formatB_terminal_metrics_override_witness :
    alookup [("inputTokenCount", J.int 12), ("outputTokenCount", J.int 7)]
      "outputTokenCount" = some (J.int 7)
    ∧ finalAttr
        (finalizeClaudeUsageAttrs (fun _ => none)
          ([]
            ++ [[("type", J.str "message_delta"),
                 ("usage", J.obj [("output_tokens", J.int 5)])]]
            ++ []
            ++ [[("type", J.str "message_stop"),
                 ("amazon-bedrock-invocationMetrics",
                  J.obj [("inputTokenCount", J.int 12),
                         ("outputTokenCount", J.int 7)])]]))
        OUTPUT_TOKENS = some (J.int 7) :=
  ⟨rfl, formatB_terminal_metrics_override (fun _ => none) [] []
    [("inputTokenCount", J.int 12), ("outputTokenCount", J.int 7)] rfl⟩

/-! ## C6: unknown content blocks -/

theorem ilookup_iset_self {α : Type} (d : List (Int × α)) (k : Int) (v : α) :
    ilookup (iset d k v) k = some v := by
  induction d with
  | nil => simp [iset, ilookup]
  | cons kv rest ih =>
      rw [iset]
      split
      · simp [ilookup]
      · rw [ilookup]
        split
        · next heq => next hne => exact absurd heq hne
        · exact ih

/-- C6 (amended): Format A preserves an unrecognized start-block verbatim
(no synthesized `text` field); Format B re-tags a block of unrecognized
`type` as a text block carrying its accumulated delta text (empty when
there were no deltas), instead of preserving it. -/
theorem unknown_block_handling :
    (∀ (jsonLoads : String → Option J) (acc : ConverseAccumulator)
       (fields : List (String × J)),
       fields ≠ [] →
       akey fields "toolUse" = false →
       akey fields "text" = false →
       akey fields "reasoningContent" = false →
       (processEvents jsonLoads acc
         [[("contentBlockStart", J.obj [("start", J.obj fields)])],
          [("contentBlockStop", J.obj [])]]).blocks
         = acc.blocks ++ [J.obj fields])
    ∧ (∀ (jsonLoads : String → Option J) (st : ClaudeStreamState)
         (idx : Int) (base : List (String × J)),
         blockTypeStr base ≠ "tool_use" →
         blockTypeStr base ≠ "thinking" →
         (processClaudeEvents jsonLoads st
           [[("type", J.str "content_block_start"), ("index", J.int idx),
             ("content_block", J.obj base)],
            [("type", J.str "content_block_stop"), ("index", J.int idx)]]).content_blocks
           = st.content_blocks ++ [J.obj [("text", J.str "")]]) := by
  constructor
  · intro jsonLoads acc fields hne h₁ h₂ h₃
    rw [processEvents, List.foldl_cons, List.foldl_cons, List.foldl_nil]
    rw [processEvent]
    simp only [alookup, agetObj, J.asObj, Option.getD_some, reduceIte]
    rw [processEvent]
    simp [alookup, agetObj, J.asObj, h₁, h₂, h₃, hne]
  · intro jsonLoads st idx base h₁ h₂
    rw [processClaudeEvents, List.foldl_cons, List.foldl_cons, List.foldl_nil]
    rw [processClaudeEvent]
    simp only [alookup, agetObj, agetIndex, J.asObj, J.asStr, Option.getD_some, reduceIte]
    rw [processClaudeEvent]
    simp [alookup, agetObj, agetIndex, J.asObj, J.asStr,
      ilookup_iset_self, h₁, h₂]

/-- C6 witness: a concrete unrecognized `guardContent` start block with no
deltas is preserved verbatim by Format A, and a concrete block of unknown
type `guardContent` is re-tagged `{"text": ""}` by Format B. -/
theorem unknown_block_handling_witness :
    ([("guardContent", J.obj [("type", J.str "BLOCKED")])] : List (String × J)) ≠ []
    ∧ (processEvents (fun _ => none) ConverseAccumulator.init
        [[("contentBlockStart", J.obj
            [("start", J.obj [("guardContent", J.obj [("type", J.str "BLOCKED")])])])],
         [("contentBlockStop", J.obj [])]]).blocks
        = [J.obj [("guardContent", J.obj [("type", J.str "BLOCKED")])]]
    ∧ (processClaudeEvents (fun _ => none) ClaudeStreamState.init
        [[("type", J.str "content_block_start"), ("index", J.int 0),
          ("content_block", J.obj [("type", J.str "guardContent"), ("x", J.int 1)])],
         [("type", J.str "content_block_stop"), ("index", J.int 0)]]).content_blocks
        = [J.obj [("text", J.str "")]] := by
  refine ⟨by simp, ?_, ?_⟩
  · exact (unknown_block_handling.1 (fun _ => none) ConverseAccumulator.init
      [("guardContent", J.obj [("type", J.str "BLOCKED")])]
      (by simp) rfl rfl rfl)
  · exact (unknown_block_handling.2 (fun _ => none) ClaudeStreamState.init 0
      [("type", J.str "guardContent"), ("x", J.int 1)]
      (by simp [blockTypeStr, alookup]) (by simp [blockTypeStr, alookup]))

/-- C6 counterexample: in Format B, a `content_block_start` carrying the
unrecognized type `guardContent` followed only by its `content_block_stop`
is finalized as a synthesized `{"text": ""}` block — it is not preserved
unchanged, contradicting the claim for Format B streams. -/
theorem unknown_block_formatB_counterexample :
    (processClaudeEvents (fun _ => none) ClaudeStreamState.init
      [[("type", J.str "content_block_start"), ("index", J.int 0),
        ("content_block", J.obj [("type", J.str "guardContent"), ("x", J.int 1)])],
       [("type", J.str "content_block_stop"), ("index", J.int 0)]]).content_blocks
      = [J.obj [("text", J.str "")]]
    ∧ (processClaudeEvents (fun _ => none) ClaudeStreamState.init
        [[("type", J.str "content_block_start"), ("index", J.int 0),
          ("content_block", J.obj [("type", J.str "guardContent"), ("x", J.int 1)])],
         [("type", J.str "content_block_stop"), ("index", J.int 0)]]).content_blocks
      ≠ [J.obj [("type", J.str "guardContent"), ("x", J.int 1)]] := by
  constructor
  · rfl
  · intro h
    rw [show (processClaudeEvents (fun _ => none) ClaudeStreamState.init
      [[("type", J.str "content_block_start"), ("index", J.int 0),
        ("content_block", J.obj [("type", J.str "guardContent"), ("x", J.int 1)])],
       [("type", J.str "content_block_stop"), ("index", J.int 0)]]).content_blocks
      = [J.obj [("text", J.str "")]] from rfl] at h
    simp at h

/-! ## C8: registry idempotency and rollback -/

theorem filter_ne_of_not_mem {st : List String} {f : String} (h : f ∉ st) :
    st.filter (· ≠ f) = st := by
  induction st with
  | nil => rfl
  | cons a rest ih =>
      rw [List.mem_cons, not_or] at h
      rw [List.filter_cons]
      simp only [decide_eq_true_eq, ne_eq]
      rw [if_pos (fun heq => h.1 heq.symm), ih h.2]

/-- C8: a name already marked instrumented returns `false` immediately with
no side effect; a failing side effect rolls the instrumented set back to
exactly its prior state and returns `false`; a subsequent call for the same
name therefore attempts the side effect exactly as a first attempt would. -/
theorem instrument_idempotent_rollback_retry :
    (∀ (st : List String) (f : String) (eff : SideEffect), f ∈ st →
       instrument st f eff = ⟨st, false, false⟩)
    ∧ (∀ (st : List String) (f : String) (eff : SideEffect), f ∉ st →
         hasSideEffect f = true → eff ≠ SideEffect.ok →
         instrument st f eff = ⟨st, false, true⟩)
    ∧ (∀ (st : List String) (f : String), f ∉ st → hasSideEffect f = true →
         instrument st f SideEffect.ok = ⟨st ++ [f], true, true⟩) := by
  have hknown : ∀ f : String, hasSideEffect f = true → f ∈ knownFrameworks := by
    intro f h
    rw [hasSideEffect] at h
    simp only [Bool.and_eq_true, decide_eq_true_eq] at h
    exact h.1.1
  refine ⟨?_, ?_, ?_⟩
  · intro st f eff hmem
    rw [instrument, if_pos hmem]
  · intro st f eff hmem heff hne
    have hrollback : (st ++ [f]).filter (· ≠ f) = st := by
      rw [List.filter_append, filter_ne_of_not_mem hmem]
      simp
    rw [instrument, if_neg hmem, if_pos (hknown f heff), if_pos heff]
    cases eff with
    | ok => exact absurd rfl hne
    | importError m => simp only [hrollback]
    | failure m => simp only [hrollback]
  · intro st f hmem heff
    rw [instrument, if_neg hmem, if_pos (hknown f heff), if_pos heff]

/-- C8 witness: for the `openai` framework — already instrumented is a
no-op returning `false`; a missing optional dependency rolls back and a
retry from the rolled-back state succeeds. -/
theorem instrument_idempotent_rollback_retry_witness :
    instrument ["openai"] "openai" SideEffect.ok = ⟨["openai"], false, false⟩
    ∧ instrument [] "openai" (SideEffect.importError "no dep") = ⟨[], false, true⟩
    ∧ instrument [] "openai" SideEffect.ok = ⟨["openai"], true, true⟩ :=
  ⟨instrument_idempotent_rollback_retry.1 ["openai"] "openai" SideEffect.ok
      (by simp),
   instrument_idempotent_rollback_retry.2.1 [] "openai"
      (SideEffect.importError "no dep") (by simp) (by decide) (by simp),
   by
     have h := instrument_idempotent_rollback_retry.2.2 [] "openai"
       (by simp) (by decide)
     simpa using h⟩

/-! ## C9: error propagation on the four wrapped call shapes -/

/-- C9: on each of the four wrapped call shapes, an underlying failure marks
the span status error with the failure message, records the exception, ends
the span (and detaches the ambient context for the streaming shapes), and
propagates the original exception unchanged. -/
theorem wrapped_call_error_propagation :
    (∀ (kwargs : List (String × J)) (e : Exc),
       (instrumentedConverse kwargs (Except.error e)).2 = Except.error e
       ∧ SpanAction.setStatus .error e.msg ∈ (instrumentedConverse kwargs (Except.error e)).1
       ∧ SpanAction.recordException e.ty e.msg ∈ (instrumentedConverse kwargs (Except.error e)).1
       ∧ SpanAction.endSpan ∈ (instrumentedConverse kwargs (Except.error e)).1)
    ∧ (∀ (kwargs : List (String × J)) (e : Exc),
        (instrumentedConverseStream kwargs (Except.error e)).2 = StreamCallResult.failed e
        ∧ SpanAction.setStatus .error e.msg ∈ (instrumentedConverseStream kwargs (Except.error e)).1
        ∧ SpanAction.recordException e.ty e.msg ∈ (instrumentedConverseStream kwargs (Except.error e)).1
        ∧ SpanAction.endSpan ∈ (instrumentedConverseStream kwargs (Except.error e)).1
        ∧ SpanAction.detach ∈ (instrumentedConverseStream kwargs (Except.error e)).1)
    ∧ (∀ (jsonLoads : String → Option J) (kwargs : List (String × J)) (e : Exc),
        (instrumentedInvokeModel jsonLoads kwargs (Except.error e)).2 = Except.error e
        ∧ SpanAction.setStatus .error e.msg ∈ (instrumentedInvokeModel jsonLoads kwargs (Except.error e)).1
        ∧ SpanAction.recordException e.ty e.msg ∈ (instrumentedInvokeModel jsonLoads kwargs (Except.error e)).1
        ∧ SpanAction.endSpan ∈ (instrumentedInvokeModel jsonLoads kwargs (Except.error e)).1)
    ∧ (∀ (jsonLoads : String → Option J) (kwargs : List (String × J)) (e : Exc),
        (instrumentedInvokeModelStream jsonLoads kwargs (Except.error e)).2
          = InvokeStreamCallResult.failed e
        ∧ SpanAction.setStatus .error e.msg ∈ (instrumentedInvokeModelStream jsonLoads kwargs (Except.error e)).1
        ∧ SpanAction.recordException e.ty e.msg ∈ (instrumentedInvokeModelStream jsonLoads kwargs (Except.error e)).1
        ∧ SpanAction.endSpan ∈ (instrumentedInvokeModelStream jsonLoads kwargs (Except.error e)).1
        ∧ SpanAction.detach ∈ (instrumentedInvokeModelStream jsonLoads kwargs (Except.error e)).1) := by
  refine ⟨?_, ?_, ?_, ?_⟩
  · intro kwargs e
    simp [instrumentedConverse, List.mem_append]
  · intro kwargs e
    simp [instrumentedConverseStream, List.mem_append]
  · intro jsonLoads kwargs e
    simp [instrumentedInvokeModel, List.mem_append]
  · intro jsonLoads kwargs e
    simp [instrumentedInvokeModelStream, List.mem_append]

/-- C9 has no hypotheses beyond its universally quantified inputs, but a
concrete instantiation is still recorded: a `ValueError` on a bare
`converse` call is re-raised unchanged with the span marked. -/
theorem wrapped_call_error_propagation_witness :
    (instrumentedConverse [] (Except.error ⟨"ValueError", "bad"⟩)).2
      = Except.error ⟨"ValueError", "bad"⟩
    ∧ SpanAction.setStatus .error "bad" ∈ (instrumentedConverse []
        (Except.error ⟨"ValueError", "bad"⟩)).1
    ∧ SpanAction.recordException "ValueError" "bad" ∈ (instrumentedConverse []
        (Except.error ⟨"ValueError", "bad"⟩)).1
    ∧ SpanAction.endSpan ∈ (instrumentedConverse []
        (Except.error ⟨"ValueError", "bad"⟩)).1 :=
  wrapped_call_error_propagation.1 [] ⟨"ValueError", "bad"⟩

/-! ## C7: single idempotent finalize of the stream wrapper -/

theorem countP_map_setAttr_endSpan (l : List (String × J)) :
    ((l.map fun kv => SpanAction.setAttr kv.1 kv.2).countP SpanAction.isEndSpan) = 0 :=
  List.countP_eq_zero.mpr (by
    intro a ha
    obtain ⟨kv, _, rfl⟩ := List.mem_map.mp ha
    simp [SpanAction.isEndSpan])

theorem countP_map_setAttr_detach (l : List (String × J)) :
    ((l.map fun kv => SpanAction.setAttr kv.1 kv.2).countP SpanAction.isDetach) = 0 :=
  List.countP_eq_zero.mpr (by
    intro a ha
    obtain ⟨kv, _, rfl⟩ := List.mem_map.mp ha
    simp [SpanAction.isDetach])

/-- The span operations of one (first) finalize: both standard events are
emitted, terminal OK status is set, and the span is ended and detached
exactly once. -/
theorem emitStreamFinalizeActions_spec (acc : ConverseAccumulator) (tr : List J) :
    SpanAction.addEvent "gen_ai.client.inference.operation.details"
        ∈ emitStreamFinalizeActions acc tr
    ∧ SpanAction.addEvent "gen_ai.choice" ∈ emitStreamFinalizeActions acc tr
    ∧ SpanAction.setStatus .ok "" ∈ emitStreamFinalizeActions acc tr
    ∧ (emitStreamFinalizeActions acc tr).countP SpanAction.isEndSpan = 1
    ∧ (emitStreamFinalizeActions acc tr).countP SpanAction.isDetach = 1 := by
  rw [emitStreamFinalizeActions, emitSpanEvents]
  refine ⟨?_, ?_, ?_, ?_, ?_⟩
  · simp [List.mem_append]
  · simp [List.mem_append]
  · simp [List.mem_append]
  · rw [List.countP_append, List.countP_append, List.countP_append]
    split_ifs <;>
      simp [countP_map_setAttr_endSpan, List.countP_cons, List.countP_nil,
        SpanAction.isEndSpan]
  · rw [List.countP_append, List.countP_append, List.countP_append]
    split_ifs <;>
      simp [countP_map_setAttr_detach, List.countP_cons, List.countP_nil,
        SpanAction.isDetach]

/-- C7 (amended): whichever of stream exhaustion or explicit `close()`
comes first emits the output details and choice events, sets terminal OK
status, and ends and detaches exactly once; an error coming first sets
terminal error status, records it, ends and detaches without emitting the
output events; and once finalized, any later operation performs no event
emission, no span end and no detach. -/
theorem stream_wrapper_finalize_once :
    (∀ (jsonLoads : String → Option J) (w : ConverseStreamWrapper), w.ended = false →
       (wrapperNext jsonLoads w .exhausted).1.ended = true
       ∧ SpanAction.addEvent "gen_ai.client.inference.operation.details"
           ∈ (wrapperNext jsonLoads w .exhausted).2
       ∧ SpanAction.addEvent "gen_ai.choice" ∈ (wrapperNext jsonLoads w .exhausted).2
       ∧ SpanAction.setStatus .ok "" ∈ (wrapperNext jsonLoads w .exhausted).2
       ∧ (wrapperNext jsonLoads w .exhausted).2.countP SpanAction.isEndSpan = 1
       ∧ (wrapperNext jsonLoads w .exhausted).2.countP SpanAction.isDetach = 1)
    ∧ (∀ (w : ConverseStreamWrapper), w.ended = false →
        (wrapperClose w).1.ended = true
        ∧ SpanAction.addEvent "gen_ai.client.inference.operation.details"
            ∈ (wrapperClose w).2
        ∧ SpanAction.addEvent "gen_ai.choice" ∈ (wrapperClose w).2
        ∧ SpanAction.setStatus .ok "" ∈ (wrapperClose w).2
        ∧ (wrapperClose w).2.countP SpanAction.isEndSpan = 1
        ∧ (wrapperClose w).2.countP SpanAction.isDetach = 1)
    ∧ (∀ (w : ConverseStreamWrapper) (e : Exc), w.ended = false →
        wrapperOnError w e = ({ w with ended := true },
          [SpanAction.setStatus .error e.msg, SpanAction.recordException e.ty e.msg,
           SpanAction.endSpan, SpanAction.detach]))
    ∧ (∀ (jsonLoads : String → Option J) (w : ConverseStreamWrapper) (op : WrapperOp),
        w.ended = true →
        (wrapperStep jsonLoads w op).1.ended = true
        ∧ (wrapperStep jsonLoads w op).2.countP SpanAction.isAddEvent = 0
        ∧ (wrapperStep jsonLoads w op).2.countP SpanAction.isEndSpan = 0
        ∧ (wrapperStep jsonLoads w op).2.countP SpanAction.isDetach = 0) := by
  refine ⟨?_, ?_, ?_, ?_⟩
  · intro jsonLoads w h
    rw [wrapperNext, wrapperFinalize, if_neg (by rw [h]; exact Bool.false_ne_true)]
    exact ⟨rfl, emitStreamFinalizeActions_spec w.acc w.tool_results⟩
  · intro w h
    rw [wrapperClose, wrapperFinalize, if_neg (by rw [h]; exact Bool.false_ne_true)]
    obtain ⟨h₁, h₂, h₃, h₄, h₅⟩ := emitStreamFinalizeActions_spec w.acc w.tool_results
    refine ⟨rfl, List.mem_cons_of_mem _ h₁, List.mem_cons_of_mem _ h₂,
      List.mem_cons_of_mem _ h₃, ?_, ?_⟩
    · rw [List.countP_cons]
      simp [SpanAction.isEndSpan, h₄]
    · rw [List.countP_cons]
      simp [SpanAction.isDetach, h₅]
  · intro w e h
    rw [wrapperOnError, if_neg (by rw [h]; exact Bool.false_ne_true)]
  · intro jsonLoads w op h
    cases op with
    | next item =>
        cases item with
        | chunk c => exact ⟨h, rfl, rfl, rfl⟩
        | exhausted =>
            rw [wrapperStep, wrapperNext, wrapperFinalize, if_pos h]
            exact ⟨h, rfl, rfl, rfl⟩
        | failed e =>
            rw [wrapperStep, wrapperNext, wrapperOnError, if_pos h]
            exact ⟨h, rfl, rfl, rfl⟩
    | close =>
        rw [wrapperStep, wrapperClose, wrapperFinalize, if_pos h]
        exact ⟨h, rfl, rfl, rfl⟩
    | onError e =>
        rw [wrapperStep, wrapperOnError, if_pos h]
        exact ⟨h, rfl, rfl, rfl⟩

/-- C7 witness: a fresh wrapper finalized by exhaustion emits both events
and ends/detaches once, and a close after that changes nothing. -/
theorem stream_wrapper_finalize_once_witness :
    (false = false)
    ∧ SpanAction.addEvent "gen_ai.choice"
        ∈ (wrapperNext (fun _ => none) ⟨false, ConverseAccumulator.init, []⟩ .exhausted).2
    ∧ (wrapperStep (fun _ => none)
        (wrapperNext (fun _ => none) ⟨false, ConverseAccumulator.init, []⟩ .exhausted).1
        .close).2.countP SpanAction.isEndSpan = 0 := by
  refine ⟨rfl, ?_, ?_⟩
  · exact (stream_wrapper_finalize_once.1 (fun _ => none)
      ⟨false, ConverseAccumulator.init, []⟩ rfl).2.2.1
  · exact ((stream_wrapper_finalize_once.2.2.2 (fun _ => none)
      (wrapperNext (fun _ => none) ⟨false, ConverseAccumulator.init, []⟩ .exhausted).1
      .close
      ((stream_wrapper_finalize_once.1 (fun _ => none)
        ⟨false, ConverseAccumulator.init, []⟩ rfl).1)).2.2.1)

/-- C7 counterexample: when the underlying iterator raises first, the
wrapper's error path ends and detaches the span but emits no events at all
— in particular neither the output details event nor the choice event —
contradicting the claim that whichever of exhaustion, close or error occurs
first emits the output and choice events. -/
theorem stream_wrapper_error_no_events_counterexample :
    (wrapperOnError ⟨false, ConverseAccumulator.init, []⟩ ⟨"RuntimeError", "boom"⟩).2
      = [SpanAction.setStatus .error "boom",
         SpanAction.recordException "RuntimeError" "boom",
         SpanAction.endSpan, SpanAction.detach]
    ∧ (wrapperOnError ⟨false, ConverseAccumulator.init, []⟩
        ⟨"RuntimeError", "boom"⟩).2.countP SpanAction.isAddEvent = 0 :=
  ⟨rfl, rfl⟩

/-! ## C2: reparenting processor runs before export -/

/-- C2: on span completion the registered processors run in registration
order, so the span the batch exporter enqueues is exactly the span the
reparenting processor produced — the reparenting mutation happens-before
the hand-off to the export queue — and the reparenter indeed precedes the
batch exporter in the registration list. -/
theorem pipeline_reparent_before_export (makeKey : String → String) (now : Int)
    (st : PipelineState) (span : RSpan) :
    (pipelineOnEnd makeKey now st span).2.exportQueue
        = st.exportQueue ++ [(onEnd makeKey now st.pending span).2]
    ∧ (pipelineOnEnd makeKey now st span).1 = (onEnd makeKey now st.pending span).2
    ∧ (pipelineOnEnd makeKey now st span).2.pending = (onEnd makeKey now st.pending span).1
    ∧ List.indexOf PipelineProcessor.streamingReparenter initTracePipeline
        < List.indexOf PipelineProcessor.batchExporter initTracePipeline := by
  refine ⟨?_, ?_, ?_, by decide⟩ <;>
    simp [pipelineOnEnd, initTracePipeline, procOnEnd]

/-! ## C3: scoped, stack-discipline session/user attribution -/

/-- C3: a span created through the scoped helper with `user_id` and
`session_id` gets exactly that attribution injected at span start from the
scoped context variables; the variables are restored on every exit path;
and a concurrently executing logical operation (with its own task-local
context) never receives the other operation's attribution values. -/
theorem ambient_attribution_scoped
    (c c₂ : AmbientCtx) (uid sid u₂ s₂ : String)
    (body body₂ : AmbientCtx → BodyOutcome Unit)
    (h₁ : uid ≠ u₂) (h₂ : sid ≠ s₂) :
    (spanScoped c (some uid) (some sid) body).1
        = [("user.id", uid), ("session.id", sid)]
    ∧ (∀ (u s : Option String) (b : AmbientCtx → BodyOutcome Unit),
        (spanScoped c u s b).2.2 = c)
    ∧ ("user.id", uid) ∉ (spanScoped c₂ (some u₂) (some s₂) body₂).1
    ∧ ("session.id", sid) ∉ (spanScoped c₂ (some u₂) (some s₂) body₂).1 := by
  refine ⟨rfl, fun u s b => rfl, ?_, ?_⟩
  · simp [spanScoped, enterSpanScope, contextOnStart, h₁]
  · simp [spanScoped, enterSpanScope, contextOnStart, h₂]

/-- C3 witness: two concrete concurrent operations with distinct ids. -/
theorem ambient_attribution_scoped_witness :
    ("u1" : String) ≠ "u2" ∧ ("s1" : String) ≠ "s2"
    ∧ (spanScoped ⟨none, none⟩ (some "u1") (some "s1")
        (fun _ => BodyOutcome.ok ())).1 = [("user.id", "u1"), ("session.id", "s1")]
    ∧ ("user.id", "u1") ∉ (spanScoped ⟨none, none⟩ (some "u2") (some "s2")
        (fun _ => (BodyOutcome.raised ⟨"RuntimeError", "x"⟩ : BodyOutcome Unit))).1 := by
  have h := ambient_attribution_scoped ⟨none, none⟩ ⟨none, none⟩ "u1" "s1" "u2" "s2"
    (fun _ => BodyOutcome.ok ())
    (fun _ => (BodyOutcome.raised ⟨"RuntimeError", "x"⟩ : BodyOutcome Unit))
    (by decide) (by decide)
  exact ⟨by decide, by decide, h.1, h.2.2.1⟩

/-! ## Pending-map lemmas for C1, C4, C5 -/

theorem totalPending_nil : totalPending [] = 0 := rfl

theorem totalPending_cons (k : String) (es : List Entry) (rest : Pending) :
    totalPending ((k, es) :: rest) = es.length + totalPending rest := by
  simp [totalPending]

theorem appendEntry_total (k : String) (e : Entry) (p : Pending) :
    totalPending (appendEntry k e p) = totalPending p + 1 := by
  induction p with
  | nil => simp [appendEntry, totalPending]
  | cons kv rest ih =>
      obtain ⟨k₁, es⟩ := kv
      rw [appendEntry]
      by_cases hk : k₁ = k
      · rw [if_pos hk, totalPending_cons, totalPending_cons]
        simp
        omega
      · rw [if_neg hk, totalPending_cons, totalPending_cons, ih]
        omega

theorem appendEntry_ne_nil (k : String) (e : Entry) (p : Pending) :
    appendEntry k e p ≠ [] := by
  cases p with
  | nil => simp [appendEntry]
  | cons kv rest =>
      obtain ⟨k₁, es⟩ := kv
      rw [appendEntry]
      split <;> simp

theorem appendEntry_nonempty {k : String} {e : Entry} {p : Pending}
    (h : allNonempty p) : allNonempty (appendEntry k e p) := by
  induction p with
  | nil =>
      intro kv hkv
      simp [appendEntry] at hkv
      simp [hkv]
  | cons kv₀ rest ih =>
      obtain ⟨k₁, es⟩ := kv₀
      rw [appendEntry]
      by_cases hk : k₁ = k
      · rw [if_pos hk]
        intro kv hkv
        rcases List.mem_cons.mp hkv with h₁ | h₁
        · rw [h₁]; simp
        · exact h kv (List.mem_cons_of_mem _ h₁)
      · rw [if_neg hk]
        intro kv hkv
        rcases List.mem_cons.mp hkv with h₁ | h₁
        · exact h kv (by rw [h₁]; simp)
        · exact ih (fun x hx => h x (List.mem_cons_of_mem _ hx)) kv h₁

theorem entryMem_appendEntry {k : String} {e₀ e : Entry} {p : Pending}
    (h : entryMem e (appendEntry k e₀ p)) : entryMem e p ∨ e = e₀ := by
  induction p with
  | nil =>
      obtain ⟨kv, hkv, he⟩ := h
      simp [appendEntry] at hkv
      rw [hkv] at he
      simp at he
      exact Or.inr he
  | cons kv₀ rest ih =>
      obtain ⟨k₁, es⟩ := kv₀
      rw [appendEntry] at h
      by_cases hk : k₁ = k
      · rw [if_pos hk] at h
        obtain ⟨kv, hkv, he⟩ := h
        rcases List.mem_cons.mp hkv with h₁ | h₁
        · rw [h₁] at he
          simp at he
          rcases he with h₂ | h₂
          · exact Or.inl ⟨(k₁, es), by simp, h₂⟩
          · exact Or.inr h₂
        · exact Or.inl ⟨kv, List.mem_cons_of_mem _ h₁, he⟩
      · rw [if_neg hk] at h
        obtain ⟨kv, hkv, he⟩ := h
        rcases List.mem_cons.mp hkv with h₁ | h₁
        · exact Or.inl ⟨kv, by rw [h₁]; simp, he⟩
        · rcases ih ⟨kv, h₁, he⟩ with h₂ | h₂
          · obtain ⟨kv₂, hkv₂, he₂⟩ := h₂
            exact Or.inl ⟨kv₂, List.mem_cons_of_mem _ hkv₂, he₂⟩
          · exact Or.inr h₂

theorem dropStale_nonempty (now : Int) (p : Pending) :
    allNonempty (dropStale now p) := by
  intro kv hkv
  rw [dropStale] at hkv
  obtain ⟨kv₀, _, h⟩ := List.mem_filterMap.mp hkv
  by_cases hc : (kv₀.2.filter (fun e => now - e.ts ≤ TTL)).isEmpty
  · rw [if_pos hc] at h; exact absurd h (by simp)
  · rw [if_neg hc] at h
    cases h
    simpa [List.isEmpty_eq_true] using hc

theorem dropStale_fresh {now : Int} {p : Pending} {e : Entry}
    (h : entryMem e (dropStale now p)) : now - e.ts ≤ TTL := by
  obtain ⟨kv, hkv, he⟩ := h
  rw [dropStale] at hkv
  obtain ⟨kv₀, _, hcond⟩ := List.mem_filterMap.mp hkv
  by_cases hc : (kv₀.2.filter (fun e => now - e.ts ≤ TTL)).isEmpty
  · rw [if_pos hc] at hcond; exact absurd hcond (by simp)
  · rw [if_neg hc] at hcond
    cases hcond
    have := List.mem_filter.mp he
    simpa using this.2

theorem dropStale_id {now : Int} {p : Pending}
    (hne : allNonempty p) (hfresh : allFresh now p) : dropStale now p = p := by
  induction p with
  | nil => rfl
  | cons kv rest ih =>
      obtain ⟨k, es⟩ := kv
      have hes : es.filter (fun e => now - e.ts ≤ TTL) = es :=
        List.filter_eq_self.mpr (fun e he => by
          simpa using hfresh (k, es) (by simp) e he)
      rw [dropStale, List.filterMap_cons]
      simp only [hes]
      rw [if_neg (by
        simpa [List.isEmpty_eq_true] using hne (k, es) (by simp))]
      have : dropStale now rest = rest :=
        ih (fun x hx => hne x (List.mem_cons_of_mem _ hx))
          (fun x hx => hfresh x (List.mem_cons_of_mem _ hx))
      rw [dropStale] at this
      rw [this]

theorem popFront_le (k : String) (p : Pending) :
    totalPending (popFront k p) ≤ totalPending p := by
  induction p with
  | nil => simp [popFront]
  | cons kv rest ih =>
      obtain ⟨k₁, es⟩ := kv
      rw [popFront]
      by_cases hk : k₁ = k
      · rw [if_pos hk]
        by_cases hlen : es.length ≤ 1
        · rw [if_pos hlen, totalPending_cons]; omega
        · rw [if_neg hlen, totalPending_cons, totalPending_cons, List.length_tail]
          omega
      · rw [if_neg hk, totalPending_cons, totalPending_cons]
        omega

theorem popFront_total_of_pget {k : String} {p : Pending} {e : Entry}
    {rest : List Entry} (h : pget p k = some (e :: rest)) :
    totalPending (popFront k p) + 1 = totalPending p := by
  induction p with
  | nil => simp [pget] at h
  | cons kv tail ih =>
      obtain ⟨k₁, es⟩ := kv
      rw [pget] at h
      rw [popFront]
      by_cases hk : k₁ = k
      · rw [if_pos hk] at h ⊢
        have hes : es = e :: rest := by
          injection h
        subst hes
        by_cases hlen : (e :: rest).length ≤ 1
        · rw [if_pos hlen, totalPending_cons]
          simp at hlen
          rw [hlen]
          simp
          omega
        · rw [if_neg hlen, totalPending_cons, totalPending_cons]
          simp
          omega
      · rw [if_neg hk] at h ⊢
        rw [totalPending_cons, totalPending_cons]
        have := ih h
        omega

theorem popFront_nonempty {k : String} {p : Pending}
    (h : allNonempty p) : allNonempty (popFront k p) := by
  induction p with
  | nil => simp [popFront, allNonempty]
  | cons kv tail ih =>
      obtain ⟨k₁, es⟩ := kv
      rw [popFront]
      by_cases hk : k₁ = k
      · rw [if_pos hk]
        by_cases hlen : es.length ≤ 1
        · rw [if_pos hlen]
          exact fun x hx => h x (List.mem_cons_of_mem _ hx)
        · rw [if_neg hlen]
          intro x hx
          rcases List.mem_cons.mp hx with h₁ | h₁
          · rw [h₁]
            simp only [ne_eq]
            intro htl
            have := congrArg List.length htl
            rw [List.length_tail] at this
            simp at this
            omega
          · exact h x (List.mem_cons_of_mem _ h₁)
      · rw [if_neg hk]
        intro x hx
        rcases List.mem_cons.mp hx with h₁ | h₁
        · exact h x (by rw [h₁]; simp)
        · exact ih (fun y hy => h y (List.mem_cons_of_mem _ hy)) x h₁

theorem popFront_subset {k : String} {p : Pending} {e : Entry}
    (h : entryMem e (popFront k p)) : entryMem e p := by
  induction p with
  | nil => simpa [popFront] using h
  | cons kv tail ih =>
      obtain ⟨k₁, es⟩ := kv
      rw [popFront] at h
      by_cases hk : k₁ = k
      · rw [if_pos hk] at h
        by_cases hlen : es.length ≤ 1
        · rw [if_pos hlen] at h
          obtain ⟨kv, hkv, he⟩ := h
          exact ⟨kv, List.mem_cons_of_mem _ hkv, he⟩
        · rw [if_neg hlen] at h
          obtain ⟨kv, hkv, he⟩ := h
          rcases List.mem_cons.mp hkv with h₁ | h₁
          · rw [h₁] at he
            exact ⟨(k₁, es), by simp, List.mem_of_mem_tail he⟩
          · exact ⟨kv, List.mem_cons_of_mem _ h₁, he⟩
      · rw [if_neg hk] at h
        obtain ⟨kv, hkv, he⟩ := h
        rcases List.mem_cons.mp hkv with h₁ | h₁
        · exact ⟨kv, by rw [h₁]; simp, he⟩
        · obtain ⟨kv₂, hkv₂, he₂⟩ := ih ⟨kv, h₁, he⟩
          exact ⟨kv₂, List.mem_cons_of_mem _ hkv₂, he₂⟩

theorem minFold_spec (rest : Pending) :
    ∀ b : String × Int,
      ((rest.foldl
          (fun best kv => if headTs kv.2 < best.2 then (kv.1, headTs kv.2) else best) b) = b
        ∨ ∃ kv ∈ rest,
            (rest.foldl
              (fun best kv => if headTs kv.2 < best.2 then (kv.1, headTs kv.2) else best) b)
              = (kv.1, headTs kv.2))
      ∧ (rest.foldl
          (fun best kv => if headTs kv.2 < best.2 then (kv.1, headTs kv.2) else best) b).2 ≤ b.2
      ∧ ∀ kv ∈ rest,
          (rest.foldl
            (fun best kv => if headTs kv.2 < best.2 then (kv.1, headTs kv.2) else best) b).2
            ≤ headTs kv.2 := by
  induction rest with
  | nil =>
      intro b
      exact ⟨Or.inl rfl, le_refl _, by simp⟩
  | cons kv₀ tail ih =>
      intro b
      rw [List.foldl_cons]
      obtain ⟨ih₁, ih₂, ih₃⟩ :=
        ih (if headTs kv₀.2 < b.2 then (kv₀.1, headTs kv₀.2) else b)
      have hb'le : (if headTs kv₀.2 < b.2 then (kv₀.1, headTs kv₀.2) else b).2 ≤ b.2 := by
        split_ifs with h
        · exact le_of_lt h
        · exact le_refl _
      have hb'kv : (if headTs kv₀.2 < b.2 then (kv₀.1, headTs kv₀.2) else b).2
          ≤ headTs kv₀.2 := by
        split_ifs with h
        · exact le_refl _
        · omega
      refine ⟨?_, le_trans ih₂ hb'le, ?_⟩
      · rcases ih₁ with h | ⟨kv, hkv, heq⟩
        · rw [h]
          split_ifs with hc
          · exact Or.inr ⟨kv₀, by simp, rfl⟩
          · exact Or.inl rfl
        · exact Or.inr ⟨kv, List.mem_cons_of_mem _ hkv, heq⟩
      · intro kv hkv
        rcases List.mem_cons.mp hkv with h | h
        · rw [h]
          exact le_trans ih₂ hb'kv
        · exact ih₃ kv h

/-- The `min` scan of `_cleanup` returns a key of the map whose queue head
carries the globally minimal head timestamp. -/
theorem oldestKey_spec (k₀ : String) (es₀ : List Entry) (rest : Pending) :
    ∃ k, oldestKey ((k₀, es₀) :: rest) = some k
      ∧ ∃ kv ∈ (k₀, es₀) :: rest, kv.1 = k
          ∧ ∀ kv₂ ∈ (k₀, es₀) :: rest, headTs kv.2 ≤ headTs kv₂.2 := by
  obtain ⟨h₁, h₂, h₃⟩ := minFold_spec rest (k₀, headTs es₀)
  rw [oldestKey]
  refine ⟨_, rfl, ?_⟩
  rcases h₁ with h | ⟨kv, hkv, heq⟩
  · refine ⟨(k₀, es₀), by simp, by rw [h], ?_⟩
    intro kv₂ hkv₂
    rcases List.mem_cons.mp hkv₂ with hh | hh
    · rw [hh]
    · have := h₃ kv₂ hh
      rw [h] at this
      exact this
  · refine ⟨kv, List.mem_cons_of_mem _ hkv, by rw [heq], ?_⟩
    intro kv₂ hkv₂
    rcases List.mem_cons.mp hkv₂ with hh | hh
    · rw [hh]
      have : (rest.foldl
          (fun best kv => if headTs kv.2 < best.2 then (kv.1, headTs kv.2) else best)
          (k₀, headTs es₀)).2 ≤ headTs es₀ := h₂
      rw [heq] at this
      exact this
    · have := h₃ kv₂ hh
      rw [heq] at this
      exact this

theorem pget_isSome_of_key_mem {p : Pending} {k : String}
    (h : k ∈ p.map Prod.fst) : ∃ es, pget p k = some es := by
  induction p with
  | nil => simp at h
  | cons kv tail ih =>
      rw [pget]
      by_cases hk : kv.1 = k
      · rw [if_pos hk]; exact ⟨kv.2, rfl⟩
      · rw [if_neg hk]
        obtain ⟨kv₁, hkv₁, hfst⟩ := List.mem_map.mp h
        rcases List.mem_cons.mp hkv₁ with h₁ | h₁
        · exact absurd (by rw [← h₁]; exact hfst) hk
        · exact ih (List.mem_map.mpr ⟨kv₁, h₁, hfst⟩)

theorem mem_of_pget {p : Pending} {k : String} {es : List Entry}
    (h : pget p k = some es) : (k, es) ∈ p := by
  induction p with
  | nil => simp [pget] at h
  | cons kv tail ih =>
      rw [pget] at h
      by_cases hk : kv.1 = k
      · rw [if_pos hk] at h
        injection h with h
        have hkv : kv = (k, es) := by
          obtain ⟨a, b⟩ := kv
          simp only [Prod.mk.injEq]
          exact ⟨hk, h⟩
        rw [hkv]
        exact List.mem_cons_self _ _
      · rw [if_neg hk] at h
        exact List.mem_cons_of_mem _ (ih h)

theorem pget_of_nodup {p : Pending} {k : String} {es : List Entry}
    (hnd : keysNodup p) (h : (k, es) ∈ p) : pget p k = some es := by
  induction p with
  | nil => simp at h
  | cons kv tail ih =>
      rw [keysNodup, List.map_cons, List.nodup_cons] at hnd
      rw [pget]
      rcases List.mem_cons.mp h with h₁ | h₁
      · rw [← h₁]
        rw [if_pos rfl]
      · by_cases hk : kv.1 = k
        · exfalso
          apply hnd.1
          rw [hk]
          exact List.mem_map.mpr ⟨(k, es), h₁, rfl⟩
        · rw [if_neg hk]
          exact ih hnd.2 h₁

theorem headTs_le_of_sorted {es : List Entry} {e : Entry}
    (hs : es.Pairwise (fun a b => a.ts ≤ b.ts)) (h : e ∈ es) :
    headTs es ≤ e.ts := by
  cases es with
  | nil => simp at h
  | cons e₀ tl =>
      rcases List.mem_cons.mp h with h₁ | h₁
      · rw [h₁, headTs]
      · rw [headTs]
        exact (List.pairwise_cons.mp hs).1 e h₁

theorem evictOldest_nonempty {p : Pending} (h : allNonempty p) :
    allNonempty (evictOldest p) := by
  rw [evictOldest]
  cases hk : oldestKey p with
  | none => exact h
  | some k => exact popFront_nonempty h

theorem evictOldest_subset {p : Pending} {e : Entry}
    (h : entryMem e (evictOldest p)) : entryMem e p := by
  rw [evictOldest] at h
  cases hk : oldestKey p with
  | none => rw [hk] at h; exact h
  | some k => rw [hk] at h; exact popFront_subset h

theorem evictOldest_total {p : Pending} (hne : allNonempty p) (hp : p ≠ []) :
    totalPending (evictOldest p) + 1 = totalPending p := by
  cases p with
  | nil => exact absurd rfl hp
  | cons kv rest =>
      obtain ⟨k₀, es₀⟩ := kv
      obtain ⟨k, hk, kv₁, hkv₁, hkey, _⟩ := oldestKey_spec k₀ es₀ rest
      rw [evictOldest, hk]
      have hmem : k ∈ ((k₀, es₀) :: rest).map Prod.fst :=
        List.mem_map.mpr ⟨kv₁, hkv₁, hkey⟩
      obtain ⟨es, hes⟩ := pget_isSome_of_key_mem hmem
      have hesne : es ≠ [] := hne (k, es) (mem_of_pget hes)
      cases es with
      | nil => exact absurd rfl hesne
      | cons e tl => exact popFront_total_of_pget hes

theorem evictLoop_nil (n : Nat) : evictLoop n [] = [] := by
  induction n with
  | zero => rfl
  | succ m ih => rw [evictLoop, evictOldest, oldestKey]; exact ih

theorem evictLoop_nonempty {p : Pending} (h : allNonempty p) (n : Nat) :
    allNonempty (evictLoop n p) := by
  induction n generalizing p with
  | zero => exact h
  | succ m ih => rw [evictLoop]; exact ih (evictOldest_nonempty h)

theorem evictLoop_subset {p : Pending} {e : Entry} (n : Nat)
    (h : entryMem e (evictLoop n p)) : entryMem e p := by
  induction n generalizing p with
  | zero => exact h
  | succ m ih => rw [evictLoop] at h; exact evictOldest_subset (ih h)

theorem evictLoop_total {p : Pending} (h : allNonempty p) (n : Nat) :
    totalPending (evictLoop n p) = totalPending p - n := by
  induction n generalizing p with
  | zero => rfl
  | succ m ih =>
      rw [evictLoop]
      by_cases hp : p = []
      · rw [hp, evictOldest, oldestKey, evictLoop_nil]
        simp [totalPending]
      · have h₁ := evictOldest_total h hp
        rw [ih (evictOldest_nonempty h)]
        omega

theorem cleanup_bound (now : Int) (p : Pending) :
    totalPending (cleanup now p) ≤ MAX_PENDING := by
  rw [cleanup]
  rw [evictLoop_total (dropStale_nonempty now p)]
  omega

theorem cleanup_fresh {now : Int} {p : Pending} {e : Entry}
    (h : entryMem e (cleanup now p)) : now - e.ts ≤ TTL := by
  rw [cleanup] at h
  exact dropStale_fresh (evictLoop_subset _ h)

theorem cleanup_id {now : Int} {p : Pending} (hne : allNonempty p)
    (hfresh : allFresh now p) (hcap : totalPending p ≤ MAX_PENDING) :
    cleanup now p = p := by
  rw [cleanup, dropStale_id hne hfresh, Nat.sub_eq_zero_of_le hcap]
  rfl

theorem strAttr_isEmpty_false {attrs : List (String × J)} {k : String} {v : String}
    (h : strAttr attrs k = some v) : attrs.isEmpty = false := by
  cases attrs with
  | nil => simp [strAttr, alookup] at h
  | cons kv rest => rfl

/-- A span of request-half shape is dispatched to `_store_request`. -/
theorem onEnd_request {mk : String → String} {now : Int} {p : Pending}
    {span : RSpan} {rd : String} (h : isRequestHalfShape span rd) :
    onEnd mk now p span = (storeRequest mk now rd span p, span) := by
  obtain ⟨h₁, h₂, h₃⟩ := h
  rw [onEnd, strAttr_isEmpty_false h₁, h₁, h₂, h₃]
  simp

/-- A span of response-half shape is dispatched to `_reparent_response`. -/
theorem onEnd_response {mk : String → String} {now : Int} {p : Pending}
    {span : RSpan} {rd : String} (h : isResponseHalfShape span rd) :
    onEnd mk now p span = reparentResponse mk rd span p := by
  obtain ⟨h₁, h₂, h₃⟩ := h
  rw [onEnd, strAttr_isEmpty_false h₁, h₁, h₂, h₃]
  simp

theorem reparent_nomatch {mk : String → String} {rd : String} {span : RSpan}
    {p : Pending} (h : pget p (mk rd) = none) :
    reparentResponse mk rd span p = (p, span) := by
  rw [reparentResponse, h]

theorem reparent_consume_nomut {mk : String → String} {rd : String} {span : RSpan}
    {p : Pending} {e : Entry} {rest : List Entry}
    (h : pget p (mk rd) = some (e :: rest))
    (heq : span.context.trace_id = e.trace_id) :
    reparentResponse mk rd span p = (popFront (mk rd) p, span) := by
  rw [reparentResponse, h]
  simp [heq]

theorem reparent_consume_mut {mk : String → String} {rd : String} {span : RSpan}
    {p : Pending} {e : Entry} {rest : List Entry}
    (h : pget p (mk rd) = some (e :: rest))
    (hne : span.context.trace_id ≠ e.trace_id) :
    reparentResponse mk rd span p
      = (popFront (mk rd) p,
         { span with
            context := ⟨e.trace_id, span.context.span_id, span.context.is_remote,
                        span.context.trace_flags, span.context.trace_state⟩,
            parent := some ⟨e.trace_id, e.span_id, true, 1, ""⟩ }) := by
  rw [reparentResponse, h]
  simp [hne]

/-- C4 (amended): TTL maintenance runs on the insert path — after a
request-half `on_end`, every surviving entry is within the TTL at the
insertion clock reading — but the lookup path performs no TTL check at all:
a response-half pops and consumes the head entry for its key, and is
reparented to it when the trace ids differ, irrespective of the entry's
age and of the current time. -/
theorem ttl_dropped_on_insert_ignored_on_lookup :
    (∀ (mk : String → String) (now : Int) (rd : String) (span : RSpan)
       (p : Pending) (e : Entry),
       entryMem e (storeRequest mk now rd span p) → now - e.ts ≤ TTL)
    ∧ (∀ (mk : String → String) (now : Int) (rd : String) (span : RSpan)
         (p : Pending) (e : Entry) (rest : List Entry),
         isResponseHalfShape span rd →
         pget p (mk rd) = some (e :: rest) →
         totalPending (onEnd mk now p span).1 + 1 = totalPending p
         ∧ (span.context.trace_id ≠ e.trace_id →
             (onEnd mk now p span).2.context.trace_id = e.trace_id
             ∧ (onEnd mk now p span).2.context.span_id = span.context.span_id
             ∧ (onEnd mk now p span).2.parent
                 = some ⟨e.trace_id, e.span_id, true, 1, ""⟩)) := by
  constructor
  · intro mk now rd span p e h
    rw [storeRequest] at h
    exact cleanup_fresh h
  · intro mk now rd span p e rest hshape hget
    rw [onEnd_response hshape]
    constructor
    · by_cases heq : span.context.trace_id = e.trace_id
      · rw [reparent_consume_nomut hget heq]
        exact popFront_total_of_pget hget
      · rw [reparent_consume_mut hget heq]
        exact popFront_total_of_pget hget
    · intro hne
      rw [reparent_consume_mut hget hne]
      exact ⟨rfl, rfl, rfl⟩

/-- C4 witness: the two halves of the amended claim at concrete inputs — a
fresh insert keeps only fresh entries, and a lookup consumes an entry 1000
clock units old (far beyond the 60-unit TTL). -/
theorem ttl_dropped_on_insert_ignored_on_lookup_witness :
    (∀ e : Entry,
       entryMem e (storeRequest (fun s => s) 0 "rd"
         { context := ⟨10, 11, false, 1, ""⟩, parent := none,
           attributes := [("logfire.span_type", J.str "span"),
                          ("request_data", J.str "rd")] } []) →
       (0 : Int) - e.ts ≤ TTL)
    ∧ (isResponseHalfShape
        { context := ⟨20, 21, false, 1, ""⟩, parent := none,
          attributes := [("logfire.span_type", J.str "log"),
                         ("request_data", J.str "rd"),
                         ("response_data", J.str "resp")] } "rd"
       ∧ pget [("rd", [⟨10, 11, -1000⟩])] ((fun s => s) "rd")
           = some (⟨10, 11, -1000⟩ :: [])
       ∧ totalPending (onEnd (fun s => s) 0 [("rd", [⟨10, 11, -1000⟩])]
           { context := ⟨20, 21, false, 1, ""⟩, parent := none,
             attributes := [("logfire.span_type", J.str "log"),
                            ("request_data", J.str "rd"),
                            ("response_data", J.str "resp")] }).1 + 1
           = totalPending [("rd", [⟨10, 11, -1000⟩])]) := by
  refine ⟨?_, ?_, rfl, ?_⟩
  · intro e h
    exact ttl_dropped_on_insert_ignored_on_lookup.1 (fun s => s) 0 "rd" _ [] e h
  · exact ⟨rfl, rfl, rfl⟩
  · exact (ttl_dropped_on_insert_ignored_on_lookup.2 (fun s => s) 0 "rd"
      { context := ⟨20, 21, false, 1, ""⟩, parent := none,
        attributes := [("logfire.span_type", J.str "log"),
                       ("request_data", J.str "rd"),
                       ("response_data", J.str "resp")] }
      [("rd", [⟨10, 11, -1000⟩])] ⟨10, 11, -1000⟩ []
      ⟨rfl, rfl, rfl⟩ rfl).1

/-- C4 counterexample: a pending entry stored at clock 0 is still consumed
and used for reparenting by a response-half arriving at clock 1000 — an age
of 1000, far beyond the 60-second TTL — because `_reparent_response` never
calls `_cleanup`; the claim that a response never consumes an entry older
than the TTL is false. -/
theorem stale_entry_reparented_counterexample :
    ((1000 : Int) - 0 > TTL)
    ∧ (onEnd (fun s => s) 1000
        ((onEnd (fun s => s) 0 []
          { context := ⟨10, 11, false, 1, ""⟩, parent := none,
            attributes := [("logfire.span_type", J.str "span"),
                           ("request_data", J.str "rd")] }).1)
        { context := ⟨20, 21, false, 1, ""⟩, parent := none,
          attributes := [("logfire.span_type", J.str "log"),
                         ("request_data", J.str "rd"),
                         ("response_data", J.str "resp")] }).2.context.trace_id = 10
    ∧ (onEnd (fun s => s) 1000
        ((onEnd (fun s => s) 0 []
          { context := ⟨10, 11, false, 1, ""⟩, parent := none,
            attributes := [("logfire.span_type", J.str "span"),
                           ("request_data", J.str "rd")] }).1)
        { context := ⟨20, 21, false, 1, ""⟩, parent := none,
          attributes := [("logfire.span_type", J.str "log"),
                         ("request_data", J.str "rd"),
                         ("response_data", J.str "resp")] }).2.parent
        = some ⟨10, 11, true, 1, ""⟩
    ∧ (onEnd (fun s => s) 1000
        ((onEnd (fun s => s) 0 []
          { context := ⟨10, 11, false, 1, ""⟩, parent := none,
            attributes := [("logfire.span_type", J.str "span"),
                           ("request_data", J.str "rd")] }).1)
        { context := ⟨20, 21, false, 1, ""⟩, parent := none,
          attributes := [("logfire.span_type", J.str "log"),
                         ("request_data", J.str "rd"),
                         ("response_data", J.str "resp")] }).1 = [] := by
  refine ⟨by norm_num [TTL], rfl, rfl, rfl⟩

/-! ## C5: bounded pending map with globally-oldest-first eviction -/

theorem reparent_le (mk : String → String) (rd : String) (span : RSpan)
    (p : Pending) :
    totalPending (reparentResponse mk rd span p).1 ≤ totalPending p := by
  rw [reparentResponse]
  split
  · exact le_refl _
  · exact le_refl _
  · split
    · exact popFront_le _ _
    · exact popFront_le _ _

theorem appendEntry_fresh {now : Int} {p : Pending} {k : String} {e₀ : Entry}
    (hfresh : allFresh now p) (he₀ : now - e₀.ts ≤ TTL) :
    allFresh now (appendEntry k e₀ p) := by
  intro kv hkv e he
  rcases entryMem_appendEntry ⟨kv, hkv, he⟩ with ⟨kv₂, hkv₂, he₂⟩ | h
  · exact hfresh kv₂ hkv₂ e he₂
  · rw [h]; exact he₀

/-- Single capacity-eviction step: the evicted entry exists, lies in the
map, and has a globally minimal timestamp. -/
theorem evictedEntry_minimal {p : Pending} (hne : allNonempty p)
    (hs : perKeySorted p) (hnd : keysNodup p) (hp : p ≠ []) :
    ∃ e₀, evictedEntry p = some e₀ ∧ entryMem e₀ p
      ∧ (∀ e, entryMem e p → e₀.ts ≤ e.ts)
      ∧ totalPending (evictOldest p) + 1 = totalPending p := by
  cases p with
  | nil => exact absurd rfl hp
  | cons kv₀ rest =>
      obtain ⟨k₀, es₀⟩ := kv₀
      obtain ⟨k, hk, kv₁, hkv₁, hkey, hmin⟩ := oldestKey_spec k₀ es₀ rest
      have hpair : (k, kv₁.2) ∈ (k₀, es₀) :: rest := by
        have : kv₁ = (k, kv₁.2) := by
          obtain ⟨a, b⟩ := kv₁
          simp only [Prod.mk.injEq]
          exact ⟨hkey, trivial⟩
        rw [← this]
        exact hkv₁
      have hget : pget ((k₀, es₀) :: rest) k = some kv₁.2 := pget_of_nodup hnd hpair
      have hesne : kv₁.2 ≠ [] := hne (k, kv₁.2) hpair
      obtain ⟨e₀, tl, hes⟩ := List.exists_cons_of_ne_nil hesne
      refine ⟨e₀, ?_, ⟨(k, kv₁.2), hpair, by rw [hes]; simp⟩, ?_, ?_⟩
      · rw [evictedEntry, hk]
        show (pget ((k₀, es₀) :: rest) k).bind List.head? = some e₀
        rw [hget, hes]
        rfl
      · intro e he
        obtain ⟨kv₂, hkv₂, he₂⟩ := he
        have h₁ : e₀.ts = headTs kv₁.2 := by rw [hes, headTs]
        have h₂ : headTs kv₁.2 ≤ headTs kv₂.2 := hmin kv₂ hkv₂
        have h₃ : headTs kv₂.2 ≤ e.ts := headTs_le_of_sorted (hs kv₂ hkv₂) he₂
        omega
      · rw [evictOldest, hk]
        rw [hes] at hget
        exact popFront_total_of_pget hget

/-- Insert into a map exactly at the capacity bound: the new entry is
appended and then exactly one eviction step runs. -/
theorem storeRequest_at_cap {mk : String → String} {now : Int} {rd : String}
    {span : RSpan} {p : Pending} (hne : allNonempty p) (hfresh : allFresh now p)
    (hcap : totalPending p = MAX_PENDING) :
    storeRequest mk now rd span p
      = evictOldest (appendEntry (mk rd)
          ⟨span.context.trace_id, span.context.span_id, now⟩ p)
    ∧ totalPending (storeRequest mk now rd span p) = MAX_PENDING := by
  have hq : allNonempty (appendEntry (mk rd)
      ⟨span.context.trace_id, span.context.span_id, now⟩ p) :=
    appendEntry_nonempty hne
  have hqf : allFresh now (appendEntry (mk rd)
      ⟨span.context.trace_id, span.context.span_id, now⟩ p) :=
    appendEntry_fresh hfresh (by norm_num [TTL])
  have hqt : totalPending (appendEntry (mk rd)
      ⟨span.context.trace_id, span.context.span_id, now⟩ p)
      = MAX_PENDING + 1 := by
    rw [appendEntry_total, hcap]
  have heq : storeRequest mk now rd span p
      = evictOldest (appendEntry (mk rd)
          ⟨span.context.trace_id, span.context.span_id, now⟩ p) := by
    rw [storeRequest, cleanup, dropStale_id hq hqf, hqt]
    rw [show MAX_PENDING + 1 - MAX_PENDING = 1 by omega]
    rfl
  refine ⟨heq, ?_⟩
  rw [heq]
  have := evictOldest_total hq (appendEntry_ne_nil _ _ _)
  omega

set_option maxRecDepth 4000 in
/-- C5: every `on_end` leaves the pending map within `MAX_PENDING` (1000);
a capacity-eviction step removes an entry of globally minimal timestamp,
irrespective of its key; and an insert into a map at the cap appends the
new entry and then evicts exactly once, ending at the cap. -/
theorem pending_capacity_bound_and_eviction :
    (∀ (mk : String → String) (now : Int) (p : Pending) (span : RSpan),
       totalPending p ≤ MAX_PENDING →
       totalPending (onEnd mk now p span).1 ≤ MAX_PENDING)
    ∧ (∀ p : Pending, allNonempty p → perKeySorted p → keysNodup p → p ≠ [] →
        ∃ e₀, evictedEntry p = some e₀ ∧ entryMem e₀ p
          ∧ (∀ e, entryMem e p → e₀.ts ≤ e.ts)
          ∧ totalPending (evictOldest p) + 1 = totalPending p)
    ∧ (∀ (mk : String → String) (now : Int) (rd : String) (span : RSpan)
         (p : Pending), allNonempty p → allFresh now p →
        totalPending p = MAX_PENDING →
        storeRequest mk now rd span p
          = evictOldest (appendEntry (mk rd)
              ⟨span.context.trace_id, span.context.span_id, now⟩ p)
        ∧ totalPending (storeRequest mk now rd span p) = MAX_PENDING) := by
  refine ⟨?_, fun p h₁ h₂ h₃ h₄ => evictedEntry_minimal h₁ h₂ h₃ h₄,
    fun mk now rd span p h₁ h₂ h₃ => storeRequest_at_cap h₁ h₂ h₃⟩
  intro mk now p span hcap
  rw [onEnd]
  split
  · exact hcap
  · split
    · exact hcap
    · split
      · exact hcap
      · dsimp only
        split
        · rw [storeRequest]
          dsimp only
          exact cleanup_bound _ _
        · split
          · exact le_trans (reparent_le _ _ _ _) hcap
          · exact hcap

set_option maxRecDepth 4000 in
/-- C5 witness: the bound holds for a singleton map after an unmatched
span's `on_end`; the eviction step on a two-key map removes the entry with
the globally minimal timestamp; and an insert into a full map (1000 entries
under one key, all at clock 0) evicts exactly one entry and stays at the
cap. -/
theorem pending_capacity_bound_and_eviction_witness :
    (totalPending [("k", [(⟨1, 2, 3⟩ : Entry)])] ≤ MAX_PENDING
     ∧ totalPending (onEnd (fun s => s) 0 [("k", [(⟨1, 2, 3⟩ : Entry)])]
         { context := ⟨1, 1, false, 1, ""⟩, parent := none,
           attributes := [] }).1 ≤ MAX_PENDING)
    ∧ (∃ e₀, evictedEntry [("a", [(⟨1, 1, 9⟩ : Entry)]), ("b", [(⟨2, 2, 4⟩ : Entry)])]
          = some e₀
        ∧ entryMem e₀ [("a", [(⟨1, 1, 9⟩ : Entry)]), ("b", [(⟨2, 2, 4⟩ : Entry)])]
        ∧ (∀ e, entryMem e [("a", [(⟨1, 1, 9⟩ : Entry)]), ("b", [(⟨2, 2, 4⟩ : Entry)])]
            → e₀.ts ≤ e.ts)
        ∧ totalPending (evictOldest
            [("a", [(⟨1, 1, 9⟩ : Entry)]), ("b", [(⟨2, 2, 4⟩ : Entry)])]) + 1
          = totalPending [("a", [(⟨1, 1, 9⟩ : Entry)]), ("b", [(⟨2, 2, 4⟩ : Entry)])])
    ∧ totalPending (storeRequest (fun s => s) 0 "rd"
        { context := ⟨7, 8, false, 1, ""⟩, parent := none, attributes := [] }
        [("k", (List.range 1000).map fun i => (⟨i, i, 0⟩ : Entry))])
        = MAX_PENDING := by
  refine ⟨⟨by norm_num [totalPending, MAX_PENDING], ?_⟩, ?_, ?_⟩
  · exact pending_capacity_bound_and_eviction.1 (fun s => s) 0 _ _
      (by norm_num [totalPending, MAX_PENDING])
  · exact pending_capacity_bound_and_eviction.2.1 _
      (by intro kv hkv; simp at hkv; rcases hkv with h | h <;> rw [h] <;> simp)
      (by intro kv hkv; simp at hkv; rcases hkv with h | h <;> rw [h] <;> simp)
      (by simp [keysNodup])
      (by simp)
  · refine (pending_capacity_bound_and_eviction.2.2 (fun s => s) 0 "rd" _ _
      ?_ ?_ ?_).2
    · intro kv hkv
      simp at hkv
      rw [hkv]
      intro hnil
      have := congrArg List.length hnil
      simp at this
    · intro kv hkv e he
      simp at hkv
      rw [hkv] at he
      simp at he
      obtain ⟨i, _, hi⟩ := he
      rw [← hi]
      norm_num [TTL]
    · simp [totalPending, MAX_PENDING]

/-! ## C1: FIFO reparenting of concurrent identical requests -/

/-- C1: two request halves A then B with identical `request_data`, followed
by two response halves with the same `request_data`, are served FIFO: the
first response is rewritten to carry A's trace id (keeping its own span id)
with its parent set to (A's trace id, A's span id) marked remote, the
second response likewise to B, and both entries are consumed; a response
whose trace id already equals the popped entry's consumes it without any
mutation. -/
theorem reparenting_fifo
    (mk : String → String) (rd : String) (t₁ t₂ t₃ t₄ : Int)
    (A B R₁ R₂ : RSpan)
    (hA : isRequestHalfShape A rd) (hB : isRequestHalfShape B rd)
    (hR₁ : isResponseHalfShape R₁ rd) (hR₂ : isResponseHalfShape R₂ rd)
    (_h12 : t₁ ≤ t₂) (httl : t₂ - t₁ ≤ TTL)
    (hne₁ : R₁.context.trace_id ≠ A.context.trace_id)
    (hne₂ : R₂.context.trace_id ≠ B.context.trace_id) :
    (onEnd mk t₁ [] A).1
       = [(mk rd, [⟨A.context.trace_id, A.context.span_id, t₁⟩])]
    ∧ (onEnd mk t₂ (onEnd mk t₁ [] A).1 B).1
       = [(mk rd, [⟨A.context.trace_id, A.context.span_id, t₁⟩,
                   ⟨B.context.trace_id, B.context.span_id, t₂⟩])]
    ∧ onEnd mk t₃ (onEnd mk t₂ (onEnd mk t₁ [] A).1 B).1 R₁
       = ([(mk rd, [⟨B.context.trace_id, B.context.span_id, t₂⟩])],
          { R₁ with
             context := ⟨A.context.trace_id, R₁.context.span_id,
                         R₁.context.is_remote, R₁.context.trace_flags,
                         R₁.context.trace_state⟩,
             parent := some ⟨A.context.trace_id, A.context.span_id, true, 1, ""⟩ })
    ∧ onEnd mk t₄ (onEnd mk t₃ (onEnd mk t₂ (onEnd mk t₁ [] A).1 B).1 R₁).1 R₂
       = ([],
          { R₂ with
             context := ⟨B.context.trace_id, R₂.context.span_id,
                         R₂.context.is_remote, R₂.context.trace_flags,
                         R₂.context.trace_state⟩,
             parent := some ⟨B.context.trace_id, B.context.span_id, true, 1, ""⟩ })
    ∧ (∀ (p : Pending) (S : RSpan) (e : Entry) (rest : List Entry) (t : Int),
        isResponseHalfShape S rd →
        pget p (mk rd) = some (e :: rest) →
        S.context.trace_id = e.trace_id →
        onEnd mk t p S = (popFront (mk rd) p, S)) := by
  have httl0 : (0 : Int) ≤ TTL := by norm_num [TTL]
  have h1 : onEnd mk t₁ [] A
      = ([(mk rd, [⟨A.context.trace_id, A.context.span_id, t₁⟩])], A) := by
    rw [onEnd_request hA, storeRequest]
    rw [show appendEntry (mk rd) ⟨A.context.trace_id, A.context.span_id, t₁⟩ []
        = [(mk rd, [⟨A.context.trace_id, A.context.span_id, t₁⟩])] from rfl]
    rw [cleanup_id
      (by intro kv hkv; simp at hkv; rw [hkv]; simp)
      (by
        intro kv hkv e he
        simp at hkv
        rw [hkv] at he
        simp at he
        rw [he]
        simpa using httl0)
      (by simp [totalPending, MAX_PENDING])]
  have h2 : onEnd mk t₂ [(mk rd, [⟨A.context.trace_id, A.context.span_id, t₁⟩])] B
      = ([(mk rd, [⟨A.context.trace_id, A.context.span_id, t₁⟩,
                   ⟨B.context.trace_id, B.context.span_id, t₂⟩])], B) := by
    rw [onEnd_request hB, storeRequest]
    rw [show appendEntry (mk rd) ⟨B.context.trace_id, B.context.span_id, t₂⟩
          [(mk rd, [⟨A.context.trace_id, A.context.span_id, t₁⟩])]
        = [(mk rd, [⟨A.context.trace_id, A.context.span_id, t₁⟩,
                    ⟨B.context.trace_id, B.context.span_id, t₂⟩])] by
      rw [appendEntry, if_pos rfl]
      rfl]
    rw [cleanup_id
      (by intro kv hkv; simp at hkv; rw [hkv]; simp)
      (by
        intro kv hkv e he
        simp at hkv
        rw [hkv] at he
        simp at he
        rcases he with he | he <;> rw [he]
        · simpa using httl
        · simpa using httl0)
      (by simp [totalPending, MAX_PENDING])]
  have hget₁ : pget [(mk rd, [⟨A.context.trace_id, A.context.span_id, t₁⟩,
                     ⟨B.context.trace_id, B.context.span_id, t₂⟩])] (mk rd)
      = some (⟨A.context.trace_id, A.context.span_id, t₁⟩ ::
              [⟨B.context.trace_id, B.context.span_id, t₂⟩]) := by
    rw [pget, if_pos rfl]
  have h3 : onEnd mk t₃
        [(mk rd, [⟨A.context.trace_id, A.context.span_id, t₁⟩,
                  ⟨B.context.trace_id, B.context.span_id, t₂⟩])] R₁
      = ([(mk rd, [⟨B.context.trace_id, B.context.span_id, t₂⟩])],
         { R₁ with
            context := ⟨A.context.trace_id, R₁.context.span_id,
                        R₁.context.is_remote, R₁.context.trace_flags,
                        R₁.context.trace_state⟩,
            parent := some ⟨A.context.trace_id, A.context.span_id, true, 1, ""⟩ }) := by
    rw [onEnd_response hR₁, reparent_consume_mut hget₁ hne₁]
    rw [popFront, if_pos rfl, if_neg (by simp)]
    rfl
  have hget₂ : pget [(mk rd, [⟨B.context.trace_id, B.context.span_id, t₂⟩])] (mk rd)
      = some (⟨B.context.trace_id, B.context.span_id, t₂⟩ :: []) := by
    rw [pget, if_pos rfl]
  have h4 : onEnd mk t₄ [(mk rd, [⟨B.context.trace_id, B.context.span_id, t₂⟩])] R₂
      = ([],
         { R₂ with
            context := ⟨B.context.trace_id, R₂.context.span_id,
                        R₂.context.is_remote, R₂.context.trace_flags,
                        R₂.context.trace_state⟩,
            parent := some ⟨B.context.trace_id, B.context.span_id, true, 1, ""⟩ }) := by
    rw [onEnd_response hR₂, reparent_consume_mut hget₂ hne₂]
    rw [popFront, if_pos rfl, if_pos (by simp)]
  refine ⟨?_, ?_, ?_, ?_, ?_⟩
  · simp only [h1]
  · simp only [h1, h2]
  · simp only [h1, h2, h3]
  · simp only [h1, h2, h3, h4]
  · intro p S e rest t hS hget heq
    rw [onEnd_response hS, reparent_consume_nomut hget heq]

/-- C1 witness: concrete request halves A (trace 10) then B (trace 30) and
two concrete response halves; the second response ends up reparented to B
and the queue is drained. -/
theorem reparenting_fifo_witness :
    ((1 : Int) - 0 ≤ TTL)
    ∧ ((50 : Nat) ≠ 10)
    ∧ ((60 : Nat) ≠ 30)
    ∧ onEnd (fun s => s) 3
        (onEnd (fun s => s) 2
          (onEnd (fun s => s) 1
            (onEnd (fun s => s) 0 []
              ⟨⟨10, 11, false, 1, ""⟩, none,
               [("logfire.span_type", J.str "span"), ("request_data", J.str "rd")]⟩).1
            ⟨⟨30, 31, false, 1, ""⟩, none,
             [("logfire.span_type", J.str "span"), ("request_data", J.str "rd")]⟩).1
          ⟨⟨50, 51, false, 1, ""⟩, none,
           [("logfire.span_type", J.str "log"), ("request_data", J.str "rd"),
            ("response_data", J.str "x")]⟩).1
        ⟨⟨60, 61, false, 1, ""⟩, none,
         [("logfire.span_type", J.str "log"), ("request_data", J.str "rd"),
          ("response_data", J.str "x")]⟩
      = ([], ⟨⟨30, 61, false, 1, ""⟩, some ⟨30, 31, true, 1, ""⟩,
          [("logfire.span_type", J.str "log"), ("request_data", J.str "rd"),
           ("response_data", J.str "x")]⟩) := by
  have h := reparenting_fifo (fun s => s) "rd" 0 1 2 3
    ⟨⟨10, 11, false, 1, ""⟩, none,
     [("logfire.span_type", J.str "span"), ("request_data", J.str "rd")]⟩
    ⟨⟨30, 31, false, 1, ""⟩, none,
     [("logfire.span_type", J.str "span"), ("request_data", J.str "rd")]⟩
    ⟨⟨50, 51, false, 1, ""⟩, none,
     [("logfire.span_type", J.str "log"), ("request_data", J.str "rd"),
      ("response_data", J.str "x")]⟩
    ⟨⟨60, 61, false, 1, ""⟩, none,
     [("logfire.span_type", J.str "log"), ("request_data", J.str "rd"),
      ("response_data", J.str "x")]⟩
    ⟨rfl, rfl, rfl⟩ ⟨rfl, rfl, rfl⟩ ⟨rfl, rfl, rfl⟩ ⟨rfl, rfl, rfl⟩
    (by norm_num) (by norm_num [TTL]) (by decide) (by decide)
  exact ⟨by norm_num [TTL], by decide, by decide, h.2.2.2.1⟩

end Sideseat
